/-
Verification of the Clawdian gateway/dispatcher core.

This file gives a shallow embedding, in Lean 4, of the parts of the
Clawdian code base (an Obsidian plugin connecting to an OpenClaw Gateway)
that the specification's testable properties talk about:

  * the command dispatcher (src/commands/dispatcher.ts),
  * the write-command handlers (src/commands/write-commands.ts),
  * the read-command handlers (src/commands/read-commands.ts),
  * the auth-payload builder and token selection (src/crypto.ts,
    src/gateway-client.ts),
  * the gateway client's challenge handling and request/response
    correlation (src/gateway-client.ts),
  * the chat model (src/chat-model.ts).

Modelling conventions: JavaScript strings are Lean strings viewed as
sequences of characters; machine numbers appearing as sizes and limits are
Nat; JSON numbers that may be fractional (editor positions) are Rat, with
Number.isInteger modelled as the denominator being 1.  JSON.parse,
Ed25519 signing and base64 encoding are injected capabilities (function
parameters), as the code consumes them from the ambient platform.
The audit logger itself is not modelled (its return value is never used
and appending a log entry affects no dispatch result), but the argument
summary the dispatcher computes for it is, because that computation can
throw on JSON-parsed null parameters.  Promise-valued handlers are modelled as total functions whose
outcome is either a normal return or a thrown exception carrying a
message.
-/
import Mathlib

/-! ## Generic string helpers (kernel-computable stand-ins for JS string ops) -/

/-- Lexicographic strict order on character lists, by code point.  This models
the code-unit comparison JavaScript applies to strings with the relational
operators, and is also the order the embedding uses for the list sort
comparator (locale-aware comparison is modelled as code-point comparison). -/
def lexLt : List Char → List Char → Bool
  | [], [] => false
  | [], _ :: _ => true
  | _ :: _, [] => false
  | a :: as, b :: bs =>
    if a.toNat < b.toNat then true
    else if b.toNat < a.toNat then false
    else lexLt as bs

/-- Strict order on strings: `strLt a b` models the JavaScript expression
`a < b` (equivalently `b > a`). -/
def strLt (a b : String) : Bool := lexLt a.data b.data

/-- Non-strict order on strings, used as the sort comparator. -/
def strLe (a b : String) : Bool := strLt a b || a == b

/-- Drop whitespace from both ends: models `String.prototype.trim`. -/
def jsTrim (s : String) : String :=
  String.mk (((s.data.dropWhile Char.isWhitespace).reverse.dropWhile Char.isWhitespace).reverse)

/-- Split a character list at every occurrence of the separator character. -/
def splitOnChar (c : Char) : List Char → List (List Char)
  | [] => [[]]
  | x :: xs =>
    match splitOnChar c xs with
    | [] => if x = c then [[], []] else [[x]]
    | r :: rs => if x = c then [] :: r :: rs else (x :: r) :: rs

/-- Split a string into its newline-separated lines, as character lists:
models `content.split("\n")` in the JavaScript source. -/
def splitNl (s : String) : List (List Char) := splitOnChar '\n' s.data

/-! ## JSON values and serialization

`Json` models the JavaScript values flowing through `JSON.stringify` at the
dispatcher boundary.  The serializer mirrors `JSON.stringify` on these
values (standard escaping of quote, backslash and common control
characters). -/

inductive Json where
  | null : Json
  | bool (b : Bool) : Json
  | num (n : Int) : Json
  | str (s : String) : Json
  | arr (elems : List Json) : Json
  | obj (fields : List (String × Json)) : Json

/-- Escape one character the way `JSON.stringify` escapes it inside a
string literal. -/
def escapeJsonChar (c : Char) : String :=
  if c = '"' then "\\\""
  else if c = '\\' then "\\\\"
  else if c = '\n' then "\\n"
  else if c = '\r' then "\\r"
  else if c = '\t' then "\\t"
  else String.mk [c]

/-- Escape a whole string for embedding in JSON output. -/
def escapeJsonString (s : String) : String :=
  String.join (s.data.map escapeJsonChar)

mutual
/-- Serialize a JSON value: models `JSON.stringify`. -/
def Json.stringify : Json → String
  | .null => "null"
  | .bool true => "true"
  | .bool false => "false"
  | .num n => toString n
  | .str s => "\"" ++ escapeJsonString s ++ "\""
  | .arr elems => "[" ++ Json.stringifyList elems ++ "]"
  | .obj fields => "\x7b" ++ Json.stringifyFields fields ++ "\x7d"

/-- Serialize array elements, comma separated. -/
def Json.stringifyList : List Json → String
  | [] => ""
  | [x] => Json.stringify x
  | x :: y :: rest => Json.stringify x ++ "," ++ Json.stringifyList (y :: rest)

/-- Serialize object fields, comma separated. -/
def Json.stringifyFields : List (String × Json) → String
  | [] => ""
  | [f] => "\"" ++ escapeJsonString f.1 ++ "\":" ++ Json.stringify f.2
  | f :: g :: rest =>
    "\"" ++ escapeJsonString f.1 ++ "\":" ++ Json.stringify f.2 ++ "," ++
      Json.stringifyFields (g :: rest)
end

/-- The (key, value) pairs the argument summarizer iterates:
`Object.keys(params)` followed by `params[key]` reads
(src/commands/utils.ts).  `Object.keys` throws a TypeError on null;
strings and arrays enumerate their elements under stringified index keys;
booleans and numbers have no own enumerable keys; objects list their
fields. -/
def jsOwnEntries : Json → Except String (List (String × Json))
  | Json.null => Except.error "Cannot convert undefined or null to object"
  | Json.bool _ => Except.ok []
  | Json.num _ => Except.ok []
  | Json.str s =>
    Except.ok (((List.range s.length).zip s.data).map
      (fun p => (toString p.1, Json.str (String.mk [p.2]))))
  | Json.arr elems =>
    Except.ok (((List.range elems.length).zip elems).map (fun p => (toString p.1, p.2)))
  | Json.obj fields => Except.ok fields

/-- The bounded argument summary (src/commands/utils.ts,
`summarizeArgs`): string values are quoted and elided past 30 characters,
other values serialized, the whole summary elided past 80 characters; an
empty key set summarizes as braces.  The `Object.keys` call throws on a
null params value, which the summarizer propagates. -/
def summarizeArgs (params : Json) : Except String String :=
  match jsOwnEntries params with
  | Except.error e => Except.error e
  | Except.ok entries =>
    Except.ok
      (if entries.length = 0 then "\x7b\x7d"
      else
        let parts := entries.map (fun kv =>
          match kv.2 with
          | Json.str v =>
            kv.1 ++ "=\"" ++ (if 30 < v.length then v.take 30 ++ "..." else v) ++ "\""
          | v => kv.1 ++ "=" ++ Json.stringify v)
        let summary := String.intercalate (", ") parts
        if 80 < summary.length then summary.take 77 ++ "..." else summary)

/-! ## Plugin settings (src/types.ts, `ClawdianSettings`) -/

/-- The value of the `authMode` setting: `"token" | "password"`. -/
inductive AuthMode where
  | token : AuthMode
  | password : AuthMode
deriving DecidableEq

/-- The plugin settings record (src/types.ts). -/
structure ClawdianSettings where
  gatewayUrl : String
  authMode : AuthMode
  gatewayToken : String
  gatewayPassword : String
  deviceToken : String
  deviceName : String
  deviceId : String
  maxReadBytes : Nat
  maxSearchResults : Nat
  maxResponseBytes : Nat
  maxFilesScannedPerSearch : Nat
  writesEnabled : Bool
  autoConnect : Bool
  chatFontSize : Nat
  chatSystemPrompt : String
  debugLogGatewayFrames : Bool
deriving DecidableEq

/-! ## Command dispatcher (src/commands/dispatcher.ts, src/commands/types.ts) -/

/-- A structured command error (src/commands/types.ts, `CommandError`). -/
structure CommandError where
  code : String
  message : String
deriving DecidableEq

/-- A handler's declared result (src/commands/types.ts, `CommandResult`). -/
inductive CommandResult where
  | ok (result : Json) : CommandResult
  | err (error : CommandError) : CommandResult

/-- The observable outcome of awaiting a handler: either a normal return of
a `CommandResult`, or a thrown exception carrying its message text. -/
inductive HandlerOutcome where
  | returns (r : CommandResult) : HandlerOutcome
  | throws (msg : String) : HandlerOutcome

/-- A registered command handler (src/commands/types.ts,
`CommandHandler`), as observed at the dispatcher's `await`. -/
def CommandHandler : Type := Json → HandlerOutcome

/-- An inbound invocation request (src/types.ts, `NodeInvokeRequest`,
the fields the dispatcher reads). -/
structure NodeInvokeRequest where
  id : String
  nodeId : String
  command : String
  paramsJSON : Option String
deriving DecidableEq

/-- The set of commands classified as writes
(src/commands/types.ts, `WRITE_COMMANDS`). -/
def WRITE_COMMANDS : List String :=
  ["obsidian.note.replaceSelection", "obsidian.note.insertAtCursor",
    "obsidian.note.applyPatch", "obsidian.note.create"]

/-- What `dispatch` returns to its caller, together with the observation of
whether the registered handler was invoked on this dispatch. -/
structure DispatchOutput where
  ok : Bool
  payloadJSON : Option String
  error : Option CommandError
  handlerRan : Bool
deriving DecidableEq

/-- Parameter resolution (dispatcher.ts lines 58-78): no `paramsJSON` (or an
empty string, which is falsy in JavaScript) yields the empty object; a
present blob is parsed with `JSON.parse`, failure yielding `none`. -/
def resolveParams (parse : String → Option Json) (request : NodeInvokeRequest) : Option Json :=
  match request.paramsJSON with
  | none => some (Json.obj [])
  | some blob => if blob = "" then some (Json.obj []) else parse blob

/-- The settled state of one `dispatch` call: a normal return of a
`DispatchOutput`, or a rejection of the dispatch promise with an uncaught
exception's message (the dispatcher's try/catch blocks guard only
`JSON.parse` and the handler `await`, so an exception thrown between them
escapes). -/
inductive DispatchResult where
  | returns (out : DispatchOutput) : DispatchResult
  | throws (msg : String) : DispatchResult
deriving DecidableEq

/-- The command dispatcher (src/commands/dispatcher.ts, `dispatch`).  The
settings argument is the snapshot read at this dispatch: in the source the
dispatcher holds a reference to the live settings object, so each dispatch
observes the host's current field values.  `handlers` is the registry built
once at construction; `parse` is the injected `JSON.parse`.  After parameter
resolution the dispatcher computes the audit-log argument summary
(dispatcher.ts line 80); `summarizeArgs` sits outside both try/catch blocks,
so its TypeError on a JSON-parsed null params value rejects the dispatch. -/
def dispatch (settings : ClawdianSettings) (handlers : String → Option CommandHandler)
    (parse : String → Option Json) (request : NodeInvokeRequest) : DispatchResult :=
  match handlers request.command with
  | none =>
    DispatchResult.returns
      { ok := false, payloadJSON := none,
        error := some { code := "E_NOT_IMPLEMENTED",
                        message := "Command " ++ request.command ++ " not implemented" },
        handlerRan := false }
  | some handler =>
    match resolveParams parse request with
    | none =>
      DispatchResult.returns
        { ok := false, payloadJSON := none,
          error := some { code := "E_INVALID_PARAMS",
                          message := "Failed to parse paramsJSON" },
          handlerRan := false }
    | some params =>
      match summarizeArgs params with
      | Except.error msg => DispatchResult.throws msg
      | Except.ok _argsSummary =>
        if WRITE_COMMANDS.contains request.command && !settings.writesEnabled then
          DispatchResult.returns
            { ok := false, payloadJSON := none,
              error := some { code := "E_WRITES_DISABLED",
                              message := "Write commands are disabled in plugin settings" },
              handlerRan := false }
        else
          match handler params with
          | .throws msg =>
            DispatchResult.returns
              { ok := false, payloadJSON := none,
                error := some { code := "E_INTERNAL",
                                message := "Internal error: " ++ msg },
                handlerRan := true }
          | .returns (.err e) =>
            DispatchResult.returns
              { ok := false, payloadJSON := none, error := some e, handlerRan := true }
          | .returns (.ok result) =>
            let payloadJSON := Json.stringify result
            let responseBytes := payloadJSON.utf8ByteSize
            if settings.maxResponseBytes < responseBytes then
              DispatchResult.returns
                { ok := false, payloadJSON := none,
                  error := some { code := "E_RESPONSE_TOO_LARGE",
                                  message := "Response " ++ toString responseBytes ++
                                    " bytes exceeds limit of " ++ toString settings.maxResponseBytes },
                  handlerRan := true }
            else
              DispatchResult.returns
                { ok := true, payloadJSON := some payloadJSON, error := none, handlerRan := true }

/-! ## Device identity and auth payload (src/crypto.ts) -/

/-- A stored device keypair (src/crypto.ts, `StoredKeypair`; the algorithm
tag is constant and omitted). -/
structure StoredKeypair where
  publicKey : String
  privateKey : String
  deviceId : String
deriving DecidableEq

/-- Input to `buildAuthPayload` (src/crypto.ts, `AuthPayloadParams`). -/
structure AuthPayloadParams where
  deviceId : String
  clientId : String
  clientMode : String
  role : String
  scopes : List String
  signedAtMs : Nat
  token : Option String
  nonce : Option String
deriving DecidableEq

/-- JavaScript truthiness of an optional string: absent and empty strings
are falsy. -/
def optStrTruthy (o : Option String) : Bool :=
  match o with
  | none => false
  | some s => !(s == "")

/-- Build the pipe-delimited signed auth payload
(src/crypto.ts, `buildAuthPayload`). -/
def buildAuthPayload (params : AuthPayloadParams) : String :=
  let version := if optStrTruthy params.nonce then "v2" else "v1"
  let scopes := String.intercalate (",") params.scopes
  let token := params.token.getD ""
  let base := [version, params.deviceId, params.clientId, params.clientMode,
    params.role, scopes, toString params.signedAtMs, token]
  let base := if version = "v2" then base ++ [params.nonce.getD ""] else base
  String.intercalate ("|") base

/-! ## Gateway auth token selection and connect request
(src/gateway-client.ts) -/

/-- The connection mode of a `GatewayClient`: `"node" | "chat"`. -/
inductive ConnMode where
  | node : ConnMode
  | chat : ConnMode
deriving DecidableEq

/-- Select the bearer token for a connection
(src/gateway-client.ts, `selectGatewayAuthToken`). -/
def selectGatewayAuthToken (settings : ClawdianSettings) (mode : ConnMode) : String :=
  if settings.authMode ≠ AuthMode.token then ""
  else
    let gatewayToken := jsTrim settings.gatewayToken
    let deviceToken := jsTrim settings.deviceToken
    match mode with
    | .node => if deviceToken == "" then gatewayToken else deviceToken
    | .chat => gatewayToken

/-- The `auth.token` field assembled in `sendConnectRequest`: present only
when `authMode` is token and the selected token is non-empty. -/
def connectAuthToken (settings : ClawdianSettings) (mode : ConnMode) : Option String :=
  let token := selectGatewayAuthToken settings mode
  if settings.authMode = AuthMode.token ∧ token ≠ "" then some token else none

/-- The client id chosen per connection mode in `sendConnectRequest`. -/
def connectClientId (mode : ConnMode) : String :=
  match mode with
  | .chat => "webchat"
  | .node => "node-host"

/-- The client mode string chosen per connection mode. -/
def connectClientMode (mode : ConnMode) : String :=
  match mode with
  | .chat => "ui"
  | .node => "node"

/-- The role string chosen per connection mode. -/
def connectRole (mode : ConnMode) : String :=
  match mode with
  | .chat => "operator"
  | .node => "node"

/-- The scopes requested per connection mode. -/
def connectScopes (mode : ConnMode) : List String :=
  match mode with
  | .chat => ["operator.read", "operator.write"]
  | .node => []

/-- Normalize the stored challenge nonce the way `sendConnectRequest`
passes it on (`this.challengeNonce || null`): an empty nonce becomes
absent. -/
def normalizeNonce (challengeNonce : Option String) : Option String :=
  match challengeNonce with
  | none => none
  | some s => if s == "" then none else some s

/-- The auth payload string assembled and signed inside
`sendConnectRequest` (src/gateway-client.ts lines 244-286). -/
def connectAuthPayload (settings : ClawdianSettings) (keypair : StoredKeypair)
    (mode : ConnMode) (challengeNonce : Option String) (signedAt : Nat) : String :=
  buildAuthPayload
    { deviceId := keypair.deviceId
      clientId := connectClientId mode
      clientMode := connectClientMode mode
      role := connectRole mode
      scopes := connectScopes mode
      signedAtMs := signedAt
      token := connectAuthToken settings mode
      nonce := normalizeNonce challengeNonce }

/-- The handshake signature sent in `sendConnectRequest`, where `sign` is
the injected Ed25519 signing capability (`signPayload`, applied to the
private key and the payload string). -/
def connectSignature (sign : String → String → String) (settings : ClawdianSettings)
    (keypair : StoredKeypair) (mode : ConnMode) (challengeNonce : Option String)
    (signedAt : Nat) : String :=
  sign keypair.privateKey (connectAuthPayload settings keypair mode challengeNonce signedAt)

/-! ## Challenge handling (src/gateway-client.ts, `doConnect` / `handleEvent`)

The observable handshake-relevant client state: the stored challenge
nonce, the `waitingForChallenge` flag, whether the challenge-wait timer is
armed (`challengeTimer` non-null), and a counter of how many times
`sendConnectRequest` has been called. -/

structure ChallengeState where
  challengeNonce : Option String
  waitingForChallenge : Bool
  challengeTimerArmed : Bool
  connectRequestsSent : Nat
deriving DecidableEq

/-- `doConnect` resets the nonce and sets `waitingForChallenge`
(src/gateway-client.ts lines 202-204). -/
def doConnectInit (st : ChallengeState) : ChallengeState :=
  { st with challengeNonce := none, waitingForChallenge := true }

/-- The `onopen` callback arms the challenge-wait timer
(src/gateway-client.ts lines 214-224). -/
def onTransportOpen (st : ChallengeState) : ChallengeState :=
  { st with challengeTimerArmed := true }

/-- The challenge-wait timer's expiry callback: it runs only while the
timer is still armed, nulls the timer, and sends the connect request if
still waiting (src/gateway-client.ts lines 217-223). -/
def onChallengeTimeout (st : ChallengeState) : ChallengeState :=
  if st.challengeTimerArmed then
    let st1 := { st with challengeTimerArmed := false }
    if st1.waitingForChallenge then
      { st1 with
        waitingForChallenge := false
        connectRequestsSent := st1.connectRequestsSent + 1 }
    else st1
  else st

/-- A `connect.challenge` event's payload (src/types.ts,
`ChallengePayload`). -/
structure GatewayChallengePayload where
  nonce : String
  ts : Nat
deriving DecidableEq

/-- Handling of a `connect.challenge` event frame
(src/gateway-client.ts, `handleEvent` lines 393-404): store a truthy
nonce; if waiting, stop waiting, cancel the timer and send the connect
request. -/
def handleChallengeEvent (payload : Option GatewayChallengePayload)
    (st : ChallengeState) : ChallengeState :=
  let st1 :=
    match payload with
    | some p => if p.nonce ≠ "" then { st with challengeNonce := some p.nonce } else st
    | none => st
  if st1.waitingForChallenge then
    { st1 with
      waitingForChallenge := false
      challengeTimerArmed := false
      connectRequestsSent := st1.connectRequestsSent + 1 }
  else st1

/-! ## Request/response correlation (src/gateway-client.ts)

The pending-request table, the in-flight connect request id, and the log
of promise settlements.  Each settlement records which promise (by request
id) was settled and how: resolved by a matching response frame
(`handleResponse` lines 383-388), rejected by its per-request timeout
(`sendRequest` lines 440-443), or rejected with a connection-closed error
at teardown (`cleanup` lines 502-506).  A request's timer is armed exactly
while its entry is in the table: every removal clears the timer in the
same step. -/

inductive Settlement where
  | resolved : Settlement
  | timedOut : Settlement
  | connectionClosed : Settlement
deriving DecidableEq

/-- The correlation-relevant client state. -/
structure CorrState where
  pending : List String
  connectRequestId : Option String
  settled : List (String × Settlement)
deriving DecidableEq

/-- The ids of promises already settled. -/
def settledIds (st : CorrState) : List String := st.settled.map Prod.fst

/-- The correlation-relevant transitions: `sendRequest` registering a fresh
id; a response frame arriving with some id; a pending request's timeout
timer firing; connection teardown (`cleanup`). -/
inductive CorrAction where
  | send (id : String) : CorrAction
  | response (id : String) : CorrAction
  | timeoutFire (id : String) : CorrAction
  | teardown : CorrAction
deriving DecidableEq

/-- One correlation step.  `response` mirrors `handleResponse`: the
in-flight connect id is checked first and consumes the frame without
touching the table; otherwise a matching pending entry is removed (timer
cleared) and resolved; an unmatched id is ignored.  `timeoutFire` mirrors
the `sendRequest` timer callback, which can only run while the entry (and
its armed timer) is present.  `teardown` mirrors `cleanup`, rejecting
every pending entry with a connection-closed error and clearing the
table. -/
def corrStep (a : CorrAction) (st : CorrState) : CorrState :=
  match a with
  | .send id => { st with pending := st.pending ++ [id] }
  | .response id =>
    if st.connectRequestId = some id then
      { st with connectRequestId := none }
    else if st.pending.contains id then
      { st with
        pending := st.pending.erase id
        settled := st.settled ++ [(id, Settlement.resolved)] }
    else st
  | .timeoutFire id =>
    if st.pending.contains id then
      { st with
        pending := st.pending.erase id
        settled := st.settled ++ [(id, Settlement.timedOut)] }
    else st
  | .teardown =>
    { pending := []
      connectRequestId := none
      settled := st.settled ++ st.pending.map (fun id => (id, Settlement.connectionClosed)) }

/-- Run a sequence of correlation steps. -/
def corrRun (actions : List CorrAction) (st : CorrState) : CorrState :=
  actions.foldl (fun s a => corrStep a s) st

/-- Well-formedness of the correlation state: the table holds each id at
most once, no promise has been settled twice, and no pending promise has
already been settled. -/
def CorrWF (st : CorrState) : Prop :=
  st.pending.Nodup ∧ (settledIds st).Nodup ∧ ∀ id ∈ st.pending, id ∉ settledIds st

/-- Admissibility of an action: `nextId` produces process-unique ids, so a
`send` never reuses a pending or settled id; the other actions carry no
side condition. -/
def corrAdmissible : CorrAction → CorrState → Prop
  | .send id, st => id ∉ st.pending ∧ id ∉ settledIds st
  | .response _, _ => True
  | .timeoutFire _, _ => True
  | .teardown, _ => True

/-- Admissibility of a whole action sequence. -/
def corrTraceAdmissible : List CorrAction → CorrState → Prop
  | [], _ => True
  | a :: rest, st => corrAdmissible a st ∧ corrTraceAdmissible rest (corrStep a st)

/-! ## Write commands (src/commands/write-commands.ts)

`handleApplyPatch` is modelled as a function of the settings snapshot, the
content of the file at the requested path (`none` when
`getAbstractFileByPath` finds no markdown file there), and the decoded
parameters.  Its result is the returned `CommandResult` paired with the
content passed to `vault.modify`, `none` when no write happens. -/

/-- A `{line, ch}` position as decoded from JSON: the components are
JavaScript numbers, so they may be negative or fractional. -/
structure JsPos where
  line : Rat
  ch : Rat
deriving DecidableEq

/-- The parameters `handleApplyPatch` reads (`from`/`to` are renamed since
`from` is reserved in Lean). -/
structure ApplyPatchParams where
  path : Option String
  mode : Option String
  newText : Option String
  fromPos : Option JsPos
  toPos : Option JsPos
deriving DecidableEq

/-- JavaScript falsiness of an optional string (`!path`): absent or
empty. -/
def optStrFalsy (o : Option String) : Bool :=
  match o with
  | none => true
  | some s => s == ""

/-- Position validation (src/commands/write-commands.ts,
`validatePosition`): integrality, line range, and column range (inclusive
of the line length). -/
def validatePosition (lines : List (List Char)) (position : JsPos)
    (label : String) : Option String :=
  if ¬(position.line.den = 1 ∧ position.ch.den = 1) then
    some (label ++ " position must use integer \x7bline, ch\x7d")
  else if position.line < 0 ∨ (lines.length : Rat) ≤ position.line then
    some (label ++ ".line out of range (file has " ++ toString lines.length ++ " lines)")
  else
    let lineLength := ((lines.get? position.line.num.toNat).getD []).length
    if position.ch < 0 ∨ (lineLength : Rat) < position.ch then
      some (label ++ ".ch out of range for line " ++ toString position.line ++
        " (0-" ++ toString lineLength ++ ")")
    else none

/-- Linear offset of a validated position (src/commands/write-commands.ts,
`lineChToOffset`): the sum of prior line lengths plus one separator per
line, plus the column. -/
def lineChToOffset (lines : List (List Char)) (position : JsPos) : Nat :=
  (((lines.take position.line.num.toNat).map (fun l => l.length + 1)).sum) +
    position.ch.num.toNat

/-- The `applied` success payload returned by the patch handler. -/
def appliedResult : CommandResult :=
  CommandResult.ok (Json.obj [("applied", Json.bool true)])

/-- The apply-patch handler (src/commands/write-commands.ts,
`handleApplyPatch`). -/
def handleApplyPatch (settings : ClawdianSettings) (file : Option String)
    (params : ApplyPatchParams) : CommandResult × Option String :=
  if optStrFalsy params.path then
    (.err { code := "E_MISSING_PARAM", message := "Missing required param: path" }, none)
  else if optStrFalsy params.mode then
    (.err { code := "E_MISSING_PARAM", message := "Missing required param: mode" }, none)
  else if params.newText = none then
    (.err { code := "E_MISSING_PARAM", message := "Missing required param: newText" }, none)
  else
    let path := params.path.getD ""
    let mode := params.mode.getD ""
    let newText := params.newText.getD ""
    if ¬(["replaceWhole", "append", "prepend", "replaceRange"].contains mode) then
      (.err { code := "E_INVALID_PARAM",
              message := "Invalid mode: " ++ mode ++
                ". Must be one of: replaceWhole, append, prepend, replaceRange" }, none)
    else if settings.maxResponseBytes < newText.utf8ByteSize then
      (.err { code := "E_TOO_LARGE",
              message := "Write payload " ++ toString newText.utf8ByteSize ++
                " bytes exceeds limit of " ++ toString settings.maxResponseBytes }, none)
    else
      match file with
      | none => (.err { code := "E_NOT_FOUND", message := "File not found: " ++ path }, none)
      | some content =>
        if mode = "replaceWhole" then (appliedResult, some newText)
        else if mode = "append" then (appliedResult, some (content ++ newText))
        else if mode = "prepend" then (appliedResult, some (newText ++ content))
        else
          match params.fromPos, params.toPos with
          | some fromP, some toP =>
            let lines := splitNl content
            match validatePosition lines fromP ("from") with
            | some msg => (.err { code := "E_INVALID_PARAM", message := msg }, none)
            | none =>
              match validatePosition lines toP ("to") with
              | some msg => (.err { code := "E_INVALID_PARAM", message := msg }, none)
              | none =>
                let startOffset := lineChToOffset lines fromP
                let endOffset := lineChToOffset lines toP
                if endOffset < startOffset then
                  (.err { code := "E_INVALID_PARAM",
                          message := "Invalid range: \x27from\x27 must be before or equal to \x27to\x27" }, none)
                else
                  (appliedResult,
                    some (String.mk (content.data.take startOffset ++ newText.data ++
                      content.data.drop endOffset)))
          | _, _ =>
            (.err { code := "E_MISSING_PARAM",
                    message := "replaceRange mode requires \x27from\x27 and \x27to\x27 params with \x7bline, ch\x7d" }, none)

/-! ## Read commands (src/commands/read-commands.ts) -/

/-- A markdown editor view as the selection handler observes it: the
current selection text of its editor. -/
structure EditorView where
  selection : String
deriving DecidableEq

/-- The get-selection handler (src/commands/read-commands.ts,
`handleSelectionGet`): the workspace's active markdown view, or `none`
when there is no such view. -/
def handleSelectionGet (view : Option EditorView) : CommandResult :=
  match view with
  | none =>
    CommandResult.ok (Json.obj [("text", Json.str ("")), ("hasSelection", Json.bool false)])
  | some v =>
    CommandResult.ok (Json.obj [("text", Json.str v.selection),
      ("hasSelection", Json.bool (decide (0 < v.selection.length)))])

/-- A child of a vault folder, as the non-recursive listing observes it:
a file with its byte size, or a folder with its child count. -/
inductive VaultChild where
  | file (path : String) (size : Nat) : VaultChild
  | folder (path : String) (childCount : Nat) : VaultChild
deriving DecidableEq

/-- The store state `handleVaultList` reads: `getFiles()`, the root's
children, and the children of the folder at a given path (`none` when
`getAbstractFileByPath` finds no folder there). -/
structure Vault where
  files : List (String × Nat)
  rootChildren : List VaultChild
  folderChildren : String → Option (List VaultChild)

/-- A listing entry (read-commands.ts, `ListItem`). -/
structure ListItem where
  path : String
  type : String
  size : Option Nat
  childCount : Option Nat
deriving DecidableEq

/-- The parameters `handleVaultList` reads (the prefix parameter is
`pathPrefix` in the source). -/
structure VaultListParams where
  pathPref : Option String
  recursive : Option Bool
  limit : Option Nat
  cursor : Option String
deriving DecidableEq

/-- Strip one trailing slash: models `pathPrefix.replace(/\/$/, "")`. -/
def stripTrailingSlash (s : String) : String :=
  match s.data.getLast? with
  | some c => if c = '/' then String.mk s.data.dropLast else s
  | none => s

/-- Map a vault child to a listing entry (folders gain a trailing slash
and a child count, files their size). -/
def childToItem : VaultChild → ListItem
  | .file p s => { path := p, type := "file", size := some s, childCount := none }
  | .folder p c => { path := p ++ "/", type := "folder", size := none, childCount := some c }

/-- Item assembly of `handleVaultList` (read-commands.ts lines 159-207):
recursive mode filters all files by prefix; non-recursive mode lists the
root's or the addressed folder's children, failing when the folder does
not exist. -/
def vaultListItems (vault : Vault) (pathPref : String) (recursive : Bool) :
    Except CommandError (List ListItem) :=
  if recursive then
    .ok ((vault.files.filter
        (fun f => pathPref == "" || pathPref.data.isPrefixOf f.1.data)).map
      (fun f => { path := f.1, type := "file", size := some f.2, childCount := none }))
  else if pathPref == "" || pathPref == "/" then
    .ok (vault.rootChildren.map childToItem)
  else
    match vault.folderChildren (stripTrailingSlash pathPref) with
    | none => .error { code := "E_NOT_FOUND", message := "Folder not found: " ++ pathPref }
    | some children => .ok (children.map childToItem)

/-- The structured result of a vault listing. -/
structure VaultListResult where
  items : List ListItem
  hasMore : Bool
  cursor : Option String
deriving DecidableEq

/-- The sort step of `handleVaultList`
(`items.sort((a, b) => a.path.localeCompare(b.path))`).  The locale-aware
`localeCompare` is a platform capability, injected here as the total
preorder it induces: `localeLe a b` holds when the comparator returns at
most zero on `(a, b)`. -/
def sortItems (localeLe : String → String → Bool) (items0 : List ListItem) : List ListItem :=
  List.insertionSort (fun a b => localeLe a.path b.path = true) items0

/-- Equality of handler results is decidable (used to evaluate the
embedding on concrete stores). -/
instance {e a : Type} [DecidableEq e] [DecidableEq a] : DecidableEq (Except e a) := fun x y =>
  match x, y with
  | Except.error u, Except.error v =>
    if h : u = v then isTrue (congrArg Except.error h)
    else isFalse (fun hc => h (Except.error.inj hc))
  | Except.ok u, Except.ok v =>
    if h : u = v then isTrue (congrArg Except.ok h)
    else isFalse (fun hc => h (Except.ok.inj hc))
  | Except.error _, Except.ok _ => isFalse (fun hc => Except.noConfusion hc)
  | Except.ok _, Except.error _ => isFalse (fun hc => Except.noConfusion hc)

/-- Sorting, cursor filtering and pagination of `handleVaultList`
(read-commands.ts lines 209-227): sort by path under the injected locale
comparator, drop everything up to and including the cursor path — the
cursor filter compares with the code-unit `>`, not with the comparator
the sort used — page to the limit, and hand out a new cursor (the
base64-encoded last path of the page, `btoa` injected) when more remain.
When more items remain but the page is empty, the source reads
`page[page.length - 1].path` on `undefined` and throws a TypeError,
which propagates out of the handler. -/
def listPage (items0 : List ListItem) (cursorPath : Option String) (limit : Nat)
    (localeLe : String → String → Bool) (btoa : String → String) :
    Except String VaultListResult :=
  let sorted := sortItems localeLe items0
  let items :=
    match cursorPath with
    | none => sorted
    | some c =>
      let idx := sorted.findIdx (fun (item : ListItem) => strLt c item.path)
      if sorted.length ≤ idx then [] else sorted.drop idx
  let hasMore := limit < items.length
  let page := items.take limit
  if hasMore then
    match page.getLast? with
    | some lastItem =>
      Except.ok { items := page, hasMore := hasMore, cursor := some (btoa lastItem.path) }
    | none => Except.error "Cannot read properties of undefined (reading \x27path\x27)"
  else
    Except.ok { items := page, hasMore := hasMore, cursor := none }

/-- The observable outcome of one `handleVaultList` call at the handler
boundary: a structured result, a structured error, or an exception
propagating out of the handler (which the dispatcher's handler guard
would map to `E_INTERNAL`). -/
inductive VaultListOutcome where
  | ok (r : VaultListResult) : VaultListOutcome
  | err (e : CommandError) : VaultListOutcome
  | threw (msg : String) : VaultListOutcome
deriving DecidableEq

/-- The list-contents handler (read-commands.ts, `handleVaultList`), with
the locale comparator and `btoa`/`atob` injected (`atob` returns `none`
where the platform function throws on invalid base64, which the handler
maps to an invalid-cursor error). -/
def handleVaultList (vault : Vault) (params : VaultListParams)
    (localeLe : String → String → Bool)
    (btoa : String → String) (atob : String → Option String) : VaultListOutcome :=
  let cursorDecoded : Except CommandError (Option String) :=
    match params.cursor with
    | none => .ok none
    | some c =>
      if c == "" then .ok none
      else
        match atob c with
        | none => .error { code := "E_INVALID_CURSOR", message := "Invalid cursor" }
        | some p => .ok (some p)
  match cursorDecoded with
  | .error e => VaultListOutcome.err e
  | .ok cursorPath =>
    match vaultListItems vault (params.pathPref.getD "") (params.recursive.getD false) with
    | .error e => VaultListOutcome.err e
    | .ok items =>
      match listPage items cursorPath (params.limit.getD 200) localeLe btoa with
      | .error msg => VaultListOutcome.threw msg
      | .ok r => VaultListOutcome.ok r

/-! ## Chat model (src/chat-model.ts) -/

/-- A chat turn role. -/
inductive ChatRole where
  | user : ChatRole
  | assistant : ChatRole
deriving DecidableEq

/-- A chat turn (src/types.ts, `ChatMessage`). -/
structure ChatMessage where
  id : String
  role : ChatRole
  content : String
  timestamp : Nat
deriving DecidableEq

/-- One content block of a chat event's message. -/
structure ContentBlock where
  type : String
  text : String
deriving DecidableEq

/-- The message carried by a chat event. -/
structure ChatEventMessage where
  content : List ContentBlock
deriving DecidableEq

/-- A chat push event's payload (src/types.ts, `ChatEventPayload`): the
state discriminator is the string `"delta" | "final" | "error"`; delta
payloads always carry a message, final payloads may. -/
structure ChatEventPayload where
  runId : String
  sessionKey : String
  seq : Nat
  state : String
  message : Option ChatEventMessage
  errorMessage : Option String
deriving DecidableEq

/-- The chat model's event-relevant state (src/chat-model.ts): the active
session key, the turn list, the streaming accumulator, the streaming run
id, and the waiting flag. -/
structure ChatModelState where
  sessionKey : String
  messages : List ChatMessage
  streamingContent : String
  streamingRunId : Option String
  waiting : Bool
deriving DecidableEq

/-- The texts of the text-typed content blocks of a chat event message. -/
def blockTexts (m : ChatEventMessage) : List String :=
  (m.content.filter (fun c => c.type == "text")).map (fun c => c.text)

/-- The text a final chat event resolves to (src/chat-model.ts lines
100-108): the final message's own text blocks when it carries at least
one, otherwise the accumulated delta text. -/
def chatFinalText (payload : ChatEventPayload) (acc : String) : String :=
  match payload.message with
  | some m =>
    let texts := blockTexts m
    if 0 < texts.length then String.join texts else acc
  | none => acc

/-- The chat event handler (src/chat-model.ts, `handleChatEvent`).
Events for another session are ignored; otherwise waiting is cleared, a
delta replaces the accumulator with the delta's own joined text and marks
the run streaming, a final appends one assistant turn whose text prefers
the final message's own text blocks over the accumulator (and appends
nothing when that text is empty) and clears streaming state, and an error
appends an error turn and clears streaming state. -/
def handleChatEvent (payload : ChatEventPayload) (now : Nat)
    (st : ChatModelState) : ChatModelState :=
  if st.sessionKey ≠ "" ∧ payload.sessionKey ≠ st.sessionKey then st
  else
    let st1 := { st with waiting := false }
    if payload.state = "delta" then
      { st1 with
        streamingRunId := some payload.runId
        streamingContent :=
          match payload.message with
          | some m => String.join (blockTexts m)
          | none => "" }
    else if payload.state = "final" then
      let finalContent := chatFinalText payload st1.streamingContent
      let st2 :=
        if finalContent ≠ "" then
          { st1 with messages := st1.messages ++
              [{ id := "assistant-" ++ payload.runId, role := ChatRole.assistant,
                 content := finalContent, timestamp := now }] }
        else st1
      { st2 with streamingContent := "", streamingRunId := none }
    else if payload.state = "error" then
      let errorText :=
        match payload.errorMessage with
        | some s => if s ≠ "" then s else "An error occurred"
        | none => "An error occurred"
      { st1 with
        messages := st1.messages ++
          [{ id := "error-" ++ payload.runId, role := ChatRole.assistant,
             content := "**Error:** " ++ errorText, timestamp := now }]
        streamingContent := ""
        streamingRunId := none }
    else st1

/-- One follow-up call of the list-contents pagination protocol: when the
previous result reports more items and hands out a cursor, feed that
cursor into the next call (over the same store and fixed parameters);
otherwise the sequence is finished. -/
def vaultListNext (vault : Vault) (params : VaultListParams)
    (localeLe : String → String → Bool) (btoa : String → String)
    (atob : String → Option String) (res : VaultListResult) : Option VaultListOutcome :=
  if res.hasMore then
    match res.cursor with
    | some c => some (handleVaultList vault { params with cursor := some c } localeLe btoa atob)
    | none => none
  else none

/-- The sequence of list-contents calls obtained by starting without a
cursor and feeding each returned cursor into the next call, over an
unchanged store with fixed prefix, recursive flag and limit.  `none`
means the sequence has already finished before the k-th call. -/
def vaultListCallSeq (vault : Vault) (params : VaultListParams)
    (localeLe : String → String → Bool) (btoa : String → String)
    (atob : String → Option String) : Nat → Option VaultListOutcome
  | 0 => some (handleVaultList vault { params with cursor := none } localeLe btoa atob)
  | k + 1 =>
    match vaultListCallSeq vault params localeLe btoa atob k with
    | some (VaultListOutcome.ok res) => vaultListNext vault params localeLe btoa atob res
    | _ => none

/-! ## Concrete fixtures (used by the witness theorems) -/

/-- A settings value mirroring the defaults used by the repository's own
tests. -/
def s0 : ClawdianSettings :=
  { gatewayUrl := "wss://example.test", authMode := AuthMode.token, gatewayToken := ""
    gatewayPassword := "", deviceToken := "", deviceName := "Obsidian", deviceId := ""
    maxReadBytes := 250000, maxSearchResults := 20, maxResponseBytes := 500000
    maxFilesScannedPerSearch := 2000, writesEnabled := true, autoConnect := true
    chatFontSize := 13, chatSystemPrompt := "system prompt", debugLogGatewayFrames := false }

/-- A concrete write-command invocation request. -/
def req0 : NodeInvokeRequest :=
  { id := "req-1", nodeId := "node-1", command := "obsidian.note.insertAtCursor"
    paramsJSON := some "\x7b\"text\":\"Hello\"\x7d" }

/-- A handler that returns an applied-style success. -/
def h0 : CommandHandler := fun _ => HandlerOutcome.returns appliedResult

/-- A handler that throws. -/
def hThrow : CommandHandler := fun _ => HandlerOutcome.throws ("boom")

/-- A concrete read-command invocation request. -/
def reqRead : NodeInvokeRequest :=
  { id := "req-2", nodeId := "node-1", command := "obsidian.selection.get"
    paramsJSON := none }

/-- A parse capability resolving everything to the empty object. -/
def parse0 : String → Option Json := fun _ => some (Json.obj [])

/-- A registry holding `h0` at the write command's name. -/
def handlers0 : String → Option CommandHandler :=
  fun c => if c = "obsidian.note.insertAtCursor" then some h0 else none

/-- A registry holding the throwing handler at the read command's name. -/
def handlersThrow : String → Option CommandHandler :=
  fun c => if c = "obsidian.selection.get" then some hThrow else none

/-- A concrete unsorted item list with three distinct paths. -/
def items0 : List ListItem :=
  [ { path := "b.md", type := "file", size := some 1, childCount := none }
  , { path := "a.md", type := "file", size := some 2, childCount := none }
  , { path := "c.md", type := "file", size := some 3, childCount := none } ]

/-- A concrete vault whose recursive file listing is `items0`. -/
def vault0 : Vault :=
  { files := [("b.md", 1), ("a.md", 2), ("c.md", 3)]
    rootChildren := []
    folderChildren := fun _ => none }

/-- A concrete base64-encode stand-in that is injective with non-empty
outputs: prepend a marker character. -/
def btoa0 : String → String := fun s => String.mk ('c' :: s.data)

/-- The matching decode capability. -/
def atob0 : String → Option String := fun c => some (String.mk (c.data.drop 1))

/-- A parse capability behaving like `JSON.parse` on the blobs used here:
the blob `"null"` parses to JSON null, anything else to the empty
object. -/
def jsonParse0 : String → Option Json :=
  fun s => if s = "null" then some Json.null else some (Json.obj [])

/-- A write-command invocation request whose parameter blob is the JSON
text `null`. -/
def reqNull : NodeInvokeRequest :=
  { id := "req-3", nodeId := "node-1", command := "obsidian.note.insertAtCursor"
    paramsJSON := some "null" }

/-- A read-command invocation request whose parameter blob is the JSON
text `null`. -/
def reqNullRead : NodeInvokeRequest :=
  { id := "req-4", nodeId := "node-1", command := "obsidian.selection.get"
    paramsJSON := some "null" }

/-- Lowercasing of ASCII letters: the primary-strength projection used by
the concrete locale comparator below. -/
def charLower (c : Char) : Char :=
  if 'A' ≤ c ∧ c ≤ 'Z' then Char.ofNat (c.toNat + 32) else c

/-- A locale comparator with the documented ICU English behaviour on the
paths it is applied to: letters compare case-insensitively at primary
strength (so `"a.md"` sorts before `"B.md"`), code-point order breaking
primary ties. -/
def localeLeEn (a b : String) : Bool :=
  let la := a.data.map charLower
  let lb := b.data.map charLower
  if la = lb then strLe a b else lexLt la lb

/-- A two-file vault with mixed-case names: a locale-aware sort puts the
lowercase name before the uppercase one, while the cursor filter's
code-unit order puts it after. -/
def vaultMixed : Vault :=
  { files := [("B.md", 1), ("a.md", 2)]
    rootChildren := []
    folderChildren := fun _ => none }

/-- Recursive listing of `vaultMixed`, one item per page. -/
def paramsMixed : VaultListParams :=
  { pathPref := none, recursive := some true, limit := some 1, cursor := none }

/-- A concrete chat-model state streaming run `"r"` in session `"s"` with
an empty accumulator. -/
def stFinal : ChatModelState :=
  { sessionKey := "s", messages := [], streamingContent := ""
    streamingRunId := some "r", waiting := false }

/-- A final chat event for session `"s"` carrying no message content. -/
def pFinal : ChatEventPayload :=
  { runId := "r", sessionKey := "s", seq := 0, state := "final"
    message := none, errorMessage := none }

/-! ## Theorems -/

/-- The argument summarizer succeeds on every JSON-parsed value other
than null (only `Object.keys(null)` throws). -/
theorem summarizeArgs_ok_of_ne_null (params : Json) (h : params ≠ Json.null) :
    ∃ s, summarizeArgs params = Except.ok s := by
  cases params with
  | null => exact absurd rfl h
  | bool b => exact ⟨_, rfl⟩
  | num n => exact ⟨_, rfl⟩
  | str s => exact ⟨_, rfl⟩
  | arr xs => exact ⟨_, rfl⟩
  | obj fs => exact ⟨_, rfl⟩

/-- The argument summarizer throws only on null, and then with the
`Object.keys` TypeError message. -/
theorem summarizeArgs_error_elim (params : Json) (e : String)
    (h : summarizeArgs params = Except.error e) :
    params = Json.null ∧ e = "Cannot convert undefined or null to object" := by
  cases params with
  | null => exact ⟨rfl, (Except.error.inj h).symm⟩
  | bool b => exact Except.noConfusion h
  | num n => exact Except.noConfusion h
  | str s => exact Except.noConfusion h
  | arr xs => exact Except.noConfusion h
  | obj fs => exact Except.noConfusion h

/-- C1 counterexample: a write command dispatched with the flag off, with
a parameter blob that `JSON.parse` resolves to null.  The dispatcher
computes the audit argument summary before the write gate, and
`Object.keys(null)` throws there, so the dispatch rejects with a
TypeError instead of returning the claimed `E_WRITES_DISABLED` error. -/
theorem dispatch_write_gate_null_counterexample :
    dispatch { s0 with writesEnabled := false } handlers0 jsonParse0 reqNull =
      DispatchResult.throws ("Cannot convert undefined or null to object") ∧
    ∀ out, dispatch { s0 with writesEnabled := false } handlers0 jsonParse0 reqNull ≠
      DispatchResult.returns out := by
  refine ⟨by decide, fun out hc => ?_⟩
  have h1 : dispatch { s0 with writesEnabled := false } handlers0 jsonParse0 reqNull =
      DispatchResult.throws ("Cannot convert undefined or null to object") := by decide
  rw [h1] at hc
  exact DispatchResult.noConfusion hc

/-- C1 (amended): every dispatch of a command in the write-command set
while the settings' `writesEnabled` flag is false, whose resolved
parameters are not JSON null (a blob parsing to null instead makes the
dispatch reject inside the argument summarizer, before the write gate),
returns an `E_WRITES_DISABLED` error without invoking the registered
handler; and since the flag is read from the current settings on every
dispatch, the same registry (no re-registration or reconstruction) runs
the handler as soon as the flag is true again — so toggling the flag
takes effect on the very next dispatch. -/
theorem dispatch_write_gate_rereads_settings_amended
    (settings : ClawdianSettings) (handlers : String → Option CommandHandler)
    (parse : String → Option Json) (request : NodeInvokeRequest) (h : CommandHandler)
    (params : Json)
    (hreg : handlers request.command = some h)
    (hcmd : WRITE_COMMANDS.contains request.command = true)
    (hparams : resolveParams parse request = some params)
    (hnn : params ≠ Json.null)
    (hoff : settings.writesEnabled = false) :
    dispatch settings handlers parse request = DispatchResult.returns
      { ok := false, payloadJSON := none
        error := some { code := "E_WRITES_DISABLED"
                        message := "Write commands are disabled in plugin settings" }
        handlerRan := false } ∧
    ∃ out, dispatch { settings with writesEnabled := true } handlers parse request =
      DispatchResult.returns out ∧ out.handlerRan = true := by
  obtain ⟨s, hs⟩ := summarizeArgs_ok_of_ne_null params hnn
  constructor
  · unfold dispatch
    simp only [hreg, hparams, hs]
    have hgate : (WRITE_COMMANDS.contains request.command && !settings.writesEnabled) = true := by
      rw [hcmd, hoff]; rfl
    rw [hgate]
    rfl
  · unfold dispatch
    simp only [hreg, hparams, hs]
    have hgate : (WRITE_COMMANDS.contains request.command &&
        !(ClawdianSettings.writesEnabled { settings with writesEnabled := true })) = false := by
      simp
    rw [hgate]
    simp only [Bool.false_eq_true, if_false]
    split
    · exact ⟨_, rfl, rfl⟩
    · exact ⟨_, rfl, rfl⟩
    · split
      · exact ⟨_, rfl, rfl⟩
      · exact ⟨_, rfl, rfl⟩

/-- Witness for C1 (amended), at the repository's own test scenario: the
insert-at-cursor command with the flag toggled off. -/
theorem dispatch_write_gate_amended_witness :
    dispatch { s0 with writesEnabled := false } handlers0 parse0 req0 = DispatchResult.returns
      { ok := false, payloadJSON := none
        error := some { code := "E_WRITES_DISABLED"
                        message := "Write commands are disabled in plugin settings" }
        handlerRan := false } ∧
    ∃ out, dispatch s0 handlers0 parse0 req0 = DispatchResult.returns out ∧
      out.handlerRan = true :=
  dispatch_write_gate_rereads_settings_amended { s0 with writesEnabled := false }
    handlers0 parse0 req0 h0 (Json.obj []) rfl (by decide) rfl
    (fun hc => Json.noConfusion hc) rfl

/-- C2 counterexample: a registered read command dispatched with a
parameter blob that `JSON.parse` resolves to null.  The dispatch neither
returns a success nor a structured error: it rejects with the TypeError
thrown by the argument summarizer before the handler runs. -/
theorem dispatch_null_params_counterexample :
    dispatch s0 handlersThrow jsonParse0 reqNullRead =
      DispatchResult.throws ("Cannot convert undefined or null to object") ∧
    ∀ out, dispatch s0 handlersThrow jsonParse0 reqNullRead ≠
      DispatchResult.returns out := by
  refine ⟨by decide, fun out hc => ?_⟩
  have h1 : dispatch s0 handlersThrow jsonParse0 reqNullRead =
      DispatchResult.throws ("Cannot convert undefined or null to object") := by decide
  rw [h1] at hc
  exact DispatchResult.noConfusion hc

/-- C2 (amended): every dispatch either returns exactly one result —
a success whose payload's UTF-8 byte length is within `maxResponseBytes`,
or a structured error — or rejects, and it rejects only when the
parameter blob parses to JSON null, with the TypeError the argument
summarizer throws before the write gate and handler; a handler exception
becomes `E_INTERNAL` carrying the exception's message; an oversized
handler success becomes `E_RESPONSE_TOO_LARGE` and the oversized payload
is never returned. -/
theorem dispatch_exactly_one_result_amended :
    (∀ (settings : ClawdianSettings) (handlers : String → Option CommandHandler)
        (parse : String → Option Json) (request : NodeInvokeRequest),
      (∃ out, dispatch settings handlers parse request = DispatchResult.returns out ∧
        ((out.ok = true ∧ out.error = none ∧
          ∃ p, out.payloadJSON = some p ∧ p.utf8ByteSize ≤ settings.maxResponseBytes) ∨
         (out.ok = false ∧ out.payloadJSON = none ∧ out.error ≠ none))) ∨
      (dispatch settings handlers parse request =
          DispatchResult.throws ("Cannot convert undefined or null to object") ∧
        resolveParams parse request = some Json.null)) ∧
    (∀ (settings : ClawdianSettings) (handlers : String → Option CommandHandler)
        (parse : String → Option Json) (request : NodeInvokeRequest)
        (h : CommandHandler) (params : Json) (msg : String),
      handlers request.command = some h →
      resolveParams parse request = some params →
      params ≠ Json.null →
      (WRITE_COMMANDS.contains request.command && !settings.writesEnabled) = false →
      h params = HandlerOutcome.throws msg →
      dispatch settings handlers parse request = DispatchResult.returns
        { ok := false, payloadJSON := none
          error := some { code := "E_INTERNAL", message := "Internal error: " ++ msg }
          handlerRan := true }) ∧
    (∀ (settings : ClawdianSettings) (handlers : String → Option CommandHandler)
        (parse : String → Option Json) (request : NodeInvokeRequest)
        (h : CommandHandler) (params : Json) (r : Json),
      handlers request.command = some h →
      resolveParams parse request = some params →
      params ≠ Json.null →
      (WRITE_COMMANDS.contains request.command && !settings.writesEnabled) = false →
      h params = HandlerOutcome.returns (CommandResult.ok r) →
      settings.maxResponseBytes < (Json.stringify r).utf8ByteSize →
      dispatch settings handlers parse request = DispatchResult.returns
        { ok := false, payloadJSON := none
          error := some { code := "E_RESPONSE_TOO_LARGE"
                          message := "Response " ++ toString (Json.stringify r).utf8ByteSize ++
                            " bytes exceeds limit of " ++ toString settings.maxResponseBytes }
          handlerRan := true }) := by
  refine ⟨?_, ?_, ?_⟩
  · intro settings handlers parse request
    rcases hD : dispatch settings handlers parse request with out | msg
    · left
      refine ⟨out, rfl, ?_⟩
      unfold dispatch at hD
      split at hD
      · cases hD; exact Or.inr ⟨rfl, rfl, by simp⟩
      · split at hD
        · cases hD; exact Or.inr ⟨rfl, rfl, by simp⟩
        · split at hD
          · cases hD
          · split at hD
            · cases hD; exact Or.inr ⟨rfl, rfl, by simp⟩
            · split at hD
              · cases hD; exact Or.inr ⟨rfl, rfl, by simp⟩
              · cases hD; exact Or.inr ⟨rfl, rfl, by simp⟩
              · dsimp only at hD
                split at hD
                · cases hD; exact Or.inr ⟨rfl, rfl, by simp⟩
                · next hlt =>
                    cases hD
                    exact Or.inl ⟨rfl, rfl, _, rfl, Nat.le_of_not_lt hlt⟩
    · right
      unfold dispatch at hD
      split at hD
      · cases hD
      · split at hD
        · cases hD
        · split at hD
          · rename_i xj params' hp' xs e hsum
            obtain ⟨hnull, hmsg⟩ := summarizeArgs_error_elim params' e hsum
            injection hD with hme
            subst hnull
            exact ⟨by rw [← hme, hmsg], hp'⟩
          · split at hD
            · cases hD
            · split at hD
              · cases hD
              · cases hD
              · dsimp only at hD
                split at hD
                · cases hD
                · cases hD
  · intro settings handlers parse request h params msg hh hp hnn hg ho
    obtain ⟨s, hs⟩ := summarizeArgs_ok_of_ne_null params hnn
    unfold dispatch
    simp only [hh, hp, hs, hg, Bool.false_eq_true, if_false, ho]
  · intro settings handlers parse request h params r hh hp hnn hg ho hsz
    obtain ⟨s, hs⟩ := summarizeArgs_ok_of_ne_null params hnn
    unfold dispatch
    simp only [hh, hp, hs, hg, Bool.false_eq_true, if_false, ho]
    rw [if_pos hsz]

/-- Witness for C2 (amended): a throwing handler is mapped to
`E_INTERNAL`, and a successful dispatch stays within the byte limit. -/
theorem dispatch_exactly_one_result_amended_witness :
    dispatch s0 handlersThrow parse0 reqRead = DispatchResult.returns
      { ok := false, payloadJSON := none
        error := some { code := "E_INTERNAL", message := "Internal error: " ++ "boom" }
        handlerRan := true } ∧
    ∃ out, dispatch s0 handlers0 parse0 req0 = DispatchResult.returns out ∧
      out.ok = true ∧ out.error = none ∧
      ∃ p, out.payloadJSON = some p ∧ p.utf8ByteSize ≤ s0.maxResponseBytes := by
  constructor
  · exact dispatch_exactly_one_result_amended.2.1 s0 handlersThrow parse0 reqRead hThrow
      (Json.obj []) ("boom") rfl rfl (fun hc => Json.noConfusion hc) (by decide) rfl
  · have hok : (match dispatch s0 handlers0 parse0 req0 with
        | DispatchResult.returns o => o.ok
        | DispatchResult.throws _ => false) = true := by decide
    rcases dispatch_exactly_one_result_amended.1 s0 handlers0 parse0 req0 with
      ⟨out, hout, hinv⟩ | ⟨hthrow, _⟩
    · rcases hinv with hgood | hbad
      · exact ⟨out, hout, hgood⟩
      · rw [hout] at hok
        dsimp only at hok
        rw [hbad.1] at hok
        exact Bool.noConfusion hok
    · rw [hthrow] at hok
      exact Bool.noConfusion hok

/-- C3: `buildAuthPayload` produces exactly the pipe-delimited string
`version|deviceId|clientId|clientMode|role|scopes|signedAt|token`, with
version `v2` and a trailing nonce field exactly when a nonce is supplied
and version `v1` without one otherwise (an absent token becoming the
empty string); and the handshake signature computed in
`sendConnectRequest` is the signing capability applied to exactly this
string. -/
theorem buildAuthPayload_format (params : AuthPayloadParams) :
    (params.nonce = none →
      buildAuthPayload params =
        "v1|" ++ params.deviceId ++ "|" ++ params.clientId ++ "|" ++ params.clientMode ++
        "|" ++ params.role ++ "|" ++ String.intercalate (",") params.scopes ++ "|" ++
        toString params.signedAtMs ++ "|" ++ params.token.getD "") ∧
    (∀ n, params.nonce = some n → n ≠ "" →
      buildAuthPayload params =
        "v2|" ++ params.deviceId ++ "|" ++ params.clientId ++ "|" ++ params.clientMode ++
        "|" ++ params.role ++ "|" ++ String.intercalate (",") params.scopes ++ "|" ++
        toString params.signedAtMs ++ "|" ++ params.token.getD "" ++ "|" ++ n) ∧
    (∀ (sign : String → String → String) (settings : ClawdianSettings)
        (keypair : StoredKeypair) (mode : ConnMode) (challengeNonce : Option String)
        (signedAt : Nat),
      connectSignature sign settings keypair mode challengeNonce signedAt =
        sign keypair.privateKey (buildAuthPayload
          { deviceId := keypair.deviceId
            clientId := connectClientId mode
            clientMode := connectClientMode mode
            role := connectRole mode
            scopes := connectScopes mode
            signedAtMs := signedAt
            token := connectAuthToken settings mode
            nonce := normalizeNonce challengeNonce })) := by
  refine ⟨?_, ?_, ?_⟩
  · intro hn
    unfold buildAuthPayload optStrTruthy
    rw [hn]
    rfl
  · intro n hn hne
    unfold buildAuthPayload optStrTruthy
    rw [hn]
    have hb : (n == "") = false := beq_eq_false_iff_ne.mpr hne
    simp only [hb]
    rfl
  · intro sign settings keypair mode challengeNonce signedAt
    rfl

/-- Witness for C3: the v2 format at a concrete nonce, and the v1 format
at an absent one. -/
theorem buildAuthPayload_format_witness :
    buildAuthPayload
      { deviceId := "d", clientId := "c", clientMode := "m", role := "r"
        scopes := ["s1", "s2"], signedAtMs := 5, token := none, nonce := some "n" } =
      "v2|d|c|m|r|s1,s2|5||n" ∧
    buildAuthPayload
      { deviceId := "d", clientId := "c", clientMode := "m", role := "r"
        scopes := [], signedAtMs := 5, token := some "t", nonce := none } =
      "v1|d|c|m|r||5|t" := by
  constructor
  · have h := (buildAuthPayload_format
      { deviceId := "d", clientId := "c", clientMode := "m", role := "r"
        scopes := ["s1", "s2"], signedAtMs := 5, token := none, nonce := some "n" }).2.1
      "n" rfl (by decide)
    exact h.trans (by decide)
  · have h := (buildAuthPayload_format
      { deviceId := "d", clientId := "c", clientMode := "m", role := "r"
        scopes := [], signedAtMs := 5, token := some "t", nonce := none }).1 rfl
    exact h.trans (by decide)

/-- C4: with token auth, node-mode connections use the trimmed device
token when non-empty and fall back to the trimmed gateway token, while
chat-mode connections use only the trimmed gateway token; with any other
auth mode the selected token is empty in both modes. -/
theorem selectGatewayAuthToken_policy (settings : ClawdianSettings) :
    (settings.authMode = AuthMode.token →
      selectGatewayAuthToken settings ConnMode.node =
        (if jsTrim settings.deviceToken = "" then jsTrim settings.gatewayToken
          else jsTrim settings.deviceToken) ∧
      selectGatewayAuthToken settings ConnMode.chat = jsTrim settings.gatewayToken) ∧
    (settings.authMode ≠ AuthMode.token →
      selectGatewayAuthToken settings ConnMode.node = "" ∧
      selectGatewayAuthToken settings ConnMode.chat = "") := by
  constructor
  · intro hm
    unfold selectGatewayAuthToken
    rw [hm]
    constructor
    · simp only [ne_eq, not_true_eq_false, if_false, beq_iff_eq]
    · simp only [ne_eq, not_true_eq_false, if_false]
  · intro hm
    unfold selectGatewayAuthToken
    simp [hm]

/-- Witness for C4, at the repository's trim-and-fallback test values. -/
theorem selectGatewayAuthToken_policy_witness :
    selectGatewayAuthToken { s0 with gatewayToken := "   ", deviceToken := "  dt  " }
      ConnMode.node = "dt" ∧
    selectGatewayAuthToken { s0 with gatewayToken := "   ", deviceToken := "  dt  " }
      ConnMode.chat = "" := by
  have h := (selectGatewayAuthToken_policy
    { s0 with gatewayToken := "   ", deviceToken := "  dt  " }).1 rfl
  exact ⟨h.1.trans (by decide), h.2.trans (by decide)⟩

/-- C5: handling a `connect.challenge` event carrying nonce `"nonce-123"`
while `waitingForChallenge` is true stores that nonce, clears the waiting
flag, cancels the challenge-wait timer, and sends exactly one handshake
connect request — and the challenge-wait timer can no longer send a
second one afterwards. -/
theorem connect_challenge_single_handshake (st : ChallengeState) (ts : Nat)
    (hw : st.waitingForChallenge = true) :
    (handleChallengeEvent (some { nonce := "nonce-123", ts := ts }) st).challengeNonce =
      some "nonce-123" ∧
    (handleChallengeEvent (some { nonce := "nonce-123", ts := ts }) st).waitingForChallenge =
      false ∧
    (handleChallengeEvent (some { nonce := "nonce-123", ts := ts }) st).challengeTimerArmed =
      false ∧
    (handleChallengeEvent (some { nonce := "nonce-123", ts := ts }) st).connectRequestsSent =
      st.connectRequestsSent + 1 ∧
    onChallengeTimeout (handleChallengeEvent (some { nonce := "nonce-123", ts := ts }) st) =
      handleChallengeEvent (some { nonce := "nonce-123", ts := ts }) st := by
  obtain ⟨cn, w, ta, n⟩ := st
  simp only at hw
  subst hw
  refine ⟨rfl, rfl, rfl, rfl, rfl⟩

/-- Witness for C5, from a freshly connecting state (waiting, timer
armed, nothing sent yet). -/
theorem connect_challenge_single_handshake_witness :
    (handleChallengeEvent (some { nonce := "nonce-123", ts := 7 })
      { challengeNonce := none, waitingForChallenge := true
        challengeTimerArmed := true, connectRequestsSent := 0 }).challengeNonce =
      some "nonce-123" ∧
    (handleChallengeEvent (some { nonce := "nonce-123", ts := 7 })
      { challengeNonce := none, waitingForChallenge := true
        challengeTimerArmed := true, connectRequestsSent := 0 }).connectRequestsSent = 1 := by
  have h := connect_challenge_single_handshake
    { challengeNonce := none, waitingForChallenge := true
      challengeTimerArmed := true, connectRequestsSent := 0 } 7 rfl
  exact ⟨h.1, h.2.2.2.1⟩

/-- C9: the get-selection handler, invoked with no active markdown view,
returns a success whose payload is exactly `{text: "", hasSelection:
false}` — the `source` and `confidence` fields that the repository's own
dispatcher test and the command catalog in constants.ts promise
(`source: "none"`, `confidence: "low"`) are absent from the returned
object. -/
theorem handleSelectionGet_no_view_payload :
    handleSelectionGet none =
      CommandResult.ok (Json.obj [("text", Json.str ("")), ("hasSelection", Json.bool false)]) :=
  rfl

/-- C10 counterexample: a final chat event for the active session whose
payload carries no message content, arriving while the streaming
accumulator is empty, appends no agent turn at all — the claim's "appends
exactly one agent turn" fails at this input (the handler only appends
when the resulting text is non-empty). -/
theorem handleChatEvent_final_empty_counterexample :
    (handleChatEvent pFinal 0 stFinal).messages.length ≠ stFinal.messages.length + 1 := by
  decide

/-- C10 (amended): for every chat event whose session key matches the
active session, a streaming-delta event replaces the accumulator with the
delta's own joined text (independently of the previous accumulator
contents) and marks streaming active without touching the turn list; a
final event resolves its text by preferring the final message's own text
blocks over the accumulated delta text, appends exactly one agent turn
carrying that text when it is non-empty and no turn when it is empty, and
clears the streaming accumulator and streaming state either way. -/
theorem handleChatEvent_amended (st : ChatModelState) (payload : ChatEventPayload) (now : Nat)
    (hsess : st.sessionKey = "" ∨ payload.sessionKey = st.sessionKey) :
    (payload.state = "delta" → ∀ m, payload.message = some m →
      (handleChatEvent payload now st).streamingContent = String.join (blockTexts m) ∧
      (handleChatEvent payload now st).streamingRunId = some payload.runId ∧
      (handleChatEvent payload now st).messages = st.messages) ∧
    (payload.state = "final" →
      (chatFinalText payload st.streamingContent ≠ "" →
        (handleChatEvent payload now st).messages = st.messages ++
          [{ id := "assistant-" ++ payload.runId, role := ChatRole.assistant
             content := chatFinalText payload st.streamingContent, timestamp := now }]) ∧
      (chatFinalText payload st.streamingContent = "" →
        (handleChatEvent payload now st).messages = st.messages) ∧
      (handleChatEvent payload now st).streamingContent = "" ∧
      (handleChatEvent payload now st).streamingRunId = none) ∧
    (∀ m, payload.message = some m → 0 < (blockTexts m).length →
      chatFinalText payload st.streamingContent = String.join (blockTexts m)) ∧
    (payload.message = none →
      chatFinalText payload st.streamingContent = st.streamingContent) := by
  have hpass : ¬(st.sessionKey ≠ "" ∧ payload.sessionKey ≠ st.sessionKey) := by
    rcases hsess with h | h
    · intro hc; exact hc.1 h
    · intro hc; exact hc.2 h
  refine ⟨?_, ?_, ?_, ?_⟩
  · intro hd m hm
    unfold handleChatEvent
    rw [if_neg hpass, hd, hm]
    exact ⟨rfl, rfl, rfl⟩
  · intro hf
    unfold handleChatEvent
    rw [if_neg hpass, hf]
    refine ⟨?_, ?_, rfl, rfl⟩
    · intro hne
      dsimp only
      rw [if_pos hne]
      rfl
    · intro heq
      dsimp only
      rw [heq]
      rfl
  · intro m hm hlen
    unfold chatFinalText
    rw [hm]
    dsimp only
    rw [if_pos hlen]
  · intro hm
    unfold chatFinalText
    rw [hm]

/-- Witness for C10 (amended): a delta with two text blocks replaces a
stale accumulator, and a final event with no content flushes the
accumulated text as one agent turn. -/
theorem handleChatEvent_amended_witness :
    (handleChatEvent
      { runId := "r1", sessionKey := "s", seq := 1, state := "delta"
        message := some { content := [ { type := "text", text := "A" }
                                     , { type := "tool", text := "x" }
                                     , { type := "text", text := "B" } ] }
        errorMessage := none } 3
      { sessionKey := "s", messages := [], streamingContent := "stale"
        streamingRunId := none, waiting := true }).streamingContent = "AB" ∧
    (handleChatEvent
      { runId := "r1", sessionKey := "s", seq := 2, state := "final"
        message := none, errorMessage := none } 4
      { sessionKey := "s", messages := [], streamingContent := "AB"
        streamingRunId := some "r1", waiting := false }).messages =
      [{ id := "assistant-r1", role := ChatRole.assistant, content := "AB", timestamp := 4 }] := by
  constructor
  · have h := (handleChatEvent_amended
      { sessionKey := "s", messages := [], streamingContent := "stale"
        streamingRunId := none, waiting := true }
      { runId := "r1", sessionKey := "s", seq := 1, state := "delta"
        message := some { content := [ { type := "text", text := "A" }
                                     , { type := "tool", text := "x" }
                                     , { type := "text", text := "B" } ] }
        errorMessage := none } 3 (Or.inr rfl)).1 rfl _ rfl
    exact h.1.trans (by decide)
  · have h := (handleChatEvent_amended
      { sessionKey := "s", messages := [], streamingContent := "AB"
        streamingRunId := some "r1", waiting := false }
      { runId := "r1", sessionKey := "s", seq := 2, state := "final"
        message := none, errorMessage := none } 4 (Or.inr rfl)).2.1 rfl
    have h1 := h.1 (by decide)
    exact h1.trans (by decide)

/-- C7: in replace-range mode on an existing file, a position whose
column equals the referenced line's length is accepted; a position whose
line is out of range, or whose column is negative or exceeds the line's
length, or which is non-integer, yields `E_INVALID_PARAM` with a message
naming the offending field and the valid range; and a `from` position
whose linear offset is strictly greater than `to`'s is `E_INVALID_PARAM`
as well — and on each of these error paths no content is written. -/
theorem handleApplyPatch_replaceRange_validation :
    (∀ (lines : List (List Char)) (i : Nat) (label : String), i < lines.length →
      validatePosition lines
        { line := (i : Rat), ch := (((lines.get? i).getD []).length : Rat) } label = none) ∧
    (∀ (lines : List (List Char)) (position : JsPos) (label : String),
      position.line.den = 1 → position.ch.den = 1 →
      0 ≤ position.line → position.line < (lines.length : Rat) →
      (position.ch < 0 ∨
        ((((lines.get? position.line.num.toNat).getD []).length : Rat) < position.ch)) →
      validatePosition lines position label =
        some (label ++ ".ch out of range for line " ++ toString position.line ++
          " (0-" ++ toString (((lines.get? position.line.num.toNat).getD []).length) ++ ")")) ∧
    (∀ (lines : List (List Char)) (position : JsPos) (label : String),
      position.line.den = 1 → position.ch.den = 1 →
      (position.line < 0 ∨ (lines.length : Rat) ≤ position.line) →
      validatePosition lines position label =
        some (label ++ ".line out of range (file has " ++ toString lines.length ++ " lines)")) ∧
    (∀ (lines : List (List Char)) (position : JsPos) (label : String),
      ¬(position.line.den = 1 ∧ position.ch.den = 1) →
      validatePosition lines position label =
        some (label ++ " position must use integer \x7bline, ch\x7d")) ∧
    (∀ (settings : ClawdianSettings) (content newText path : String) (fromP toP : JsPos)
        (msg : String),
      path ≠ "" → newText.utf8ByteSize ≤ settings.maxResponseBytes →
      validatePosition (splitNl content) fromP ("from") = some msg →
      handleApplyPatch settings (some content)
        { path := some path, mode := some "replaceRange", newText := some newText
          fromPos := some fromP, toPos := some toP } =
        (CommandResult.err { code := "E_INVALID_PARAM", message := msg }, none)) ∧
    (∀ (settings : ClawdianSettings) (content newText path : String) (fromP toP : JsPos)
        (msg : String),
      path ≠ "" → newText.utf8ByteSize ≤ settings.maxResponseBytes →
      validatePosition (splitNl content) fromP ("from") = none →
      validatePosition (splitNl content) toP ("to") = some msg →
      handleApplyPatch settings (some content)
        { path := some path, mode := some "replaceRange", newText := some newText
          fromPos := some fromP, toPos := some toP } =
        (CommandResult.err { code := "E_INVALID_PARAM", message := msg }, none)) ∧
    (∀ (settings : ClawdianSettings) (content newText path : String) (fromP toP : JsPos),
      path ≠ "" → newText.utf8ByteSize ≤ settings.maxResponseBytes →
      validatePosition (splitNl content) fromP ("from") = none →
      validatePosition (splitNl content) toP ("to") = none →
      lineChToOffset (splitNl content) toP < lineChToOffset (splitNl content) fromP →
      handleApplyPatch settings (some content)
        { path := some path, mode := some "replaceRange", newText := some newText
          fromPos := some fromP, toPos := some toP } =
        (CommandResult.err
          { code := "E_INVALID_PARAM"
            message := "Invalid range: \x27from\x27 must be before or equal to \x27to\x27" },
          none)) := by
  refine ⟨?_, ?_, ?_, ?_, ?_, ?_, ?_⟩
  · intro lines i label hi
    unfold validatePosition
    rw [if_neg, if_neg, if_neg]
    · intro hc
      rcases hc with hc | hc
      · dsimp only at hc
        exact absurd hc (not_lt.mpr (Nat.cast_nonneg _))
      · dsimp only at hc
        rw [Rat.num_natCast, Int.toNat_natCast] at hc
        exact absurd hc (lt_irrefl _)
    · intro hc
      rcases hc with hc | hc
      · dsimp only at hc
        exact absurd hc (not_lt.mpr (Nat.cast_nonneg _))
      · dsimp only at hc
        rw [Nat.cast_le] at hc
        exact absurd hi (Nat.not_lt.mpr hc)
    · intro hc
      exact hc ⟨Rat.den_natCast _, Rat.den_natCast _⟩
  · intro lines position label hd1 hd2 h0 hlen hbad
    unfold validatePosition
    rw [if_neg (by intro hc; exact hc ⟨hd1, hd2⟩),
      if_neg (by intro hc; rcases hc with hc | hc
                 · exact absurd h0 (not_le.mpr hc)
                 · exact absurd hlen (not_lt.mpr hc)),
      if_pos hbad]
  · intro lines position label hd1 hd2 hbad
    unfold validatePosition
    rw [if_neg (by intro hc; exact hc ⟨hd1, hd2⟩), if_pos hbad]
  · intro lines position label hbad
    unfold validatePosition
    rw [if_pos hbad]
  · intro settings content newText path fromP toP msg hpath hsize hval
    unfold handleApplyPatch optStrFalsy
    have hfal : (path == "") = false := beq_eq_false_iff_ne.mpr hpath
    dsimp only
    simp only [hfal, Bool.false_eq_true, if_false, Option.getD_some]
    rw [if_neg (Nat.not_lt.mpr hsize), hval]
    rfl
  · intro settings content newText path fromP toP msg hpath hsize hvf hvt
    unfold handleApplyPatch optStrFalsy
    have hfal : (path == "") = false := beq_eq_false_iff_ne.mpr hpath
    dsimp only
    simp only [hfal, Bool.false_eq_true, if_false, Option.getD_some]
    rw [if_neg (Nat.not_lt.mpr hsize), hvf, hvt]
    rfl
  · intro settings content newText path fromP toP hpath hsize hvf hvt hoff
    unfold handleApplyPatch optStrFalsy
    have hfal : (path == "") = false := beq_eq_false_iff_ne.mpr hpath
    dsimp only
    simp only [hfal, Bool.false_eq_true, if_false, Option.getD_some]
    rw [if_neg (Nat.not_lt.mpr hsize), hvf, hvt]
    dsimp only
    rw [if_pos hoff]
    rfl

/-- Witness for C7, at the repository's own test file (`"line one\nline
two"`): the end-of-line boundary is accepted, column 999 on an 8-column
line is rejected with the range-naming message, and an inverted range is
rejected — both without a write. -/
theorem handleApplyPatch_replaceRange_validation_witness :
    validatePosition (splitNl "line one\nline two") { line := 0, ch := 8 } ("from") = none ∧
    handleApplyPatch s0 (some "line one\nline two")
      { path := some "notes/test.md", mode := some "replaceRange", newText := some "X"
        fromPos := some { line := 0, ch := 999 }, toPos := some { line := 0, ch := 1 } } =
      (CommandResult.err
        { code := "E_INVALID_PARAM", message := "from.ch out of range for line 0 (0-8)" },
        none) ∧
    handleApplyPatch s0 (some "line one\nline two")
      { path := some "notes/test.md", mode := some "replaceRange", newText := some "X"
        fromPos := some { line := 1, ch := 3 }, toPos := some { line := 0, ch := 0 } } =
      (CommandResult.err
        { code := "E_INVALID_PARAM"
          message := "Invalid range: \x27from\x27 must be before or equal to \x27to\x27" },
        none) := by
  refine ⟨?_, ?_, ?_⟩
  · have h := handleApplyPatch_replaceRange_validation.1 (splitNl "line one\nline two") 0
      ("from") (by decide)
    exact (by decide : validatePosition (splitNl "line one\nline two")
      { line := 0, ch := 8 } ("from") =
      validatePosition (splitNl "line one\nline two")
        { line := (0 : Nat), ch := ((((splitNl "line one\nline two").get? 0).getD []).length : Rat) }
        ("from")).trans h
  · exact handleApplyPatch_replaceRange_validation.2.2.2.2.1 s0 "line one\nline two" "X"
      "notes/test.md" { line := 0, ch := 999 } { line := 0, ch := 1 }
      "from.ch out of range for line 0 (0-8)" (by decide) (by decide) (by decide)
  · exact handleApplyPatch_replaceRange_validation.2.2.2.2.2.2 s0 "line one\nline two" "X"
      "notes/test.md" { line := 1, ch := 3 } { line := 0, ch := 0 }
      (by decide) (by decide) (by decide) (by decide) (by decide)


theorem corrWF_settle (st : CorrState) (id : String) (s : Settlement)
    (hp : st.pending.Nodup) (hs : (settledIds st).Nodup)
    (hdisj : ∀ i ∈ st.pending, i ∉ settledIds st) (hid : id ∈ st.pending) :
    CorrWF { st with pending := st.pending.erase id
                     settled := st.settled ++ [(id, s)] } := by
  have hidns : id ∉ settledIds st := hdisj id hid
  refine ⟨?_, ?_, ?_⟩
  · exact List.Nodup.erase id hp
  · show (List.map Prod.fst (st.settled ++ [(id, s)])).Nodup
    rw [List.map_append, List.nodup_append]
    refine ⟨hs, by simp, ?_⟩
    intro x hx hx1
    simp only [List.map_cons, List.map_nil, List.mem_singleton] at hx1
    exact hidns (hx1 ▸ hx)
  · intro x hx
    replace hx : x ∈ st.pending.erase id := hx
    have hxi := (List.Nodup.mem_erase_iff hp).mp hx
    show x ∉ List.map Prod.fst (st.settled ++ [(id, s)])
    rw [List.map_append]
    intro hmem2
    rcases List.mem_append.mp hmem2 with h2 | h2
    · exact hdisj x hxi.2 h2
    · simp only [List.map_cons, List.map_nil, List.mem_singleton] at h2
      exact hxi.1 h2

theorem corrWF_step (a : CorrAction) (st : CorrState) (hwf : CorrWF st)
    (hadm : corrAdmissible a st) : CorrWF (corrStep a st) := by
  obtain ⟨hp, hs, hdisj⟩ := hwf
  cases a with
  | send id =>
    obtain ⟨hnp, hns⟩ := hadm
    refine ⟨?_, hs, ?_⟩
    · show (st.pending ++ [id]).Nodup
      rw [List.nodup_append]
      refine ⟨hp, by simp, ?_⟩
      intro x hx hx1
      rw [List.mem_singleton] at hx1
      exact hnp (hx1 ▸ hx)
    · intro x hx
      rcases List.mem_append.mp hx with hx | hx
      · exact hdisj x hx
      · rw [List.mem_singleton] at hx
        exact fun hc => hns (hx ▸ hc)
  | response id =>
    show CorrWF (if st.connectRequestId = some id then
        { st with connectRequestId := none }
      else if st.pending.contains id then
        { st with pending := st.pending.erase id
                  settled := st.settled ++ [(id, Settlement.resolved)] }
      else st)
    split
    · exact ⟨hp, hs, hdisj⟩
    · split
      · next hmem =>
        exact corrWF_settle st id Settlement.resolved hp hs hdisj (List.elem_iff.mp hmem)
      · exact ⟨hp, hs, hdisj⟩
  | timeoutFire id =>
    show CorrWF (if st.pending.contains id then
        { st with pending := st.pending.erase id
                  settled := st.settled ++ [(id, Settlement.timedOut)] }
      else st)
    split
    · next hmem =>
      exact corrWF_settle st id Settlement.timedOut hp hs hdisj (List.elem_iff.mp hmem)
    · exact ⟨hp, hs, hdisj⟩
  | teardown =>
    refine ⟨List.nodup_nil, ?_, ?_⟩
    · show (List.map Prod.fst (st.settled ++
        st.pending.map (fun i => (i, Settlement.connectionClosed)))).Nodup
      rw [List.map_append, List.map_map, List.nodup_append]
      have hmapid : List.map (Prod.fst ∘ fun i => (i, Settlement.connectionClosed)) st.pending
          = st.pending := by
        simp [Function.comp_def]
      refine ⟨hs, ?_, ?_⟩
      · rw [hmapid]; exact hp
      · rw [hmapid]
        intro x hx hx2
        exact hdisj x hx2 hx
    · intro x hx
      exact absurd hx (List.not_mem_nil x)

theorem corrWF_run (actions : List CorrAction) (st : CorrState) (hwf : CorrWF st)
    (hadm : corrTraceAdmissible actions st) : CorrWF (corrRun actions st) := by
  induction actions generalizing st with
  | nil => exact hwf
  | cons a rest ih =>
    obtain ⟨ha, hrest⟩ := hadm
    exact ih (corrStep a st) (corrWF_step a st hwf ha) hrest

theorem corr_pending_kept (a : CorrAction) (st : CorrState) (id : String)
    (hid : id ∈ st.pending) :
    id ∈ (corrStep a st).pending ∨ id ∈ settledIds (corrStep a st) := by
  cases a with
  | send i => exact Or.inl (List.mem_append_left _ hid)
  | response i =>
    simp only [corrStep]
    split
    · exact Or.inl hid
    · split
      · by_cases hii : id = i
        · subst hii
          right
          show id ∈ List.map Prod.fst (st.settled ++ [(id, Settlement.resolved)])
          rw [List.map_append]
          exact List.mem_append_right _ (by simp)
        · exact Or.inl ((List.mem_erase_of_ne hii).mpr hid)
      · exact Or.inl hid
  | timeoutFire i =>
    simp only [corrStep]
    split
    · by_cases hii : id = i
      · subst hii
        right
        show id ∈ List.map Prod.fst (st.settled ++ [(id, Settlement.timedOut)])
        rw [List.map_append]
        exact List.mem_append_right _ (by simp)
      · exact Or.inl ((List.mem_erase_of_ne hii).mpr hid)
    · exact Or.inl hid
  | teardown =>
    right
    show id ∈ List.map Prod.fst (st.settled ++
      st.pending.map (fun i => (i, Settlement.connectionClosed)))
    rw [List.map_append, List.map_map]
    refine List.mem_append_right _ ?_
    have hmapid : List.map (Prod.fst ∘ fun i => (i, Settlement.connectionClosed)) st.pending
        = st.pending := by
      simp [Function.comp_def]
    rw [hmapid]
    exact hid

theorem corr_response_discard (st : CorrState) (id : String)
    (hnp : id ∉ st.pending) (hnc : st.connectRequestId ≠ some id) :
    corrStep (CorrAction.response id) st = st := by
  simp only [corrStep]
  rw [if_neg hnc, if_neg]
  intro hc
  exact hnp (List.elem_iff.mp hc)

/-- C6: every promise created by `sendRequest` is settled at most once —
resolved by a matching response (which removes the entry and its timer),
rejected by its timeout, or rejected at teardown — and never dropped
without one of these settlements; and a response frame whose id matches
no pending entry and is not the in-flight connect request id is silently
discarded with no state change. -/
theorem sendRequest_promise_settled_once :
    (∀ (a : CorrAction) (st : CorrState), CorrWF st → corrAdmissible a st →
      CorrWF (corrStep a st)) ∧
    (∀ (actions : List CorrAction) (st : CorrState), CorrWF st →
      corrTraceAdmissible actions st → CorrWF (corrRun actions st)) ∧
    (∀ (a : CorrAction) (st : CorrState) (id : String), id ∈ st.pending →
      id ∈ (corrStep a st).pending ∨ id ∈ settledIds (corrStep a st)) ∧
    (∀ (st : CorrState) (id : String), id ∉ st.pending →
      st.connectRequestId ≠ some id → corrStep (CorrAction.response id) st = st) :=
  ⟨corrWF_step, corrWF_run, corr_pending_kept, corr_response_discard⟩

/-- Witness for C6: a concrete trace — send, resolve, send, timeout,
send, teardown — keeps the state well-formed (each id settled exactly
once), and an unmatched response is a no-op on a concrete state. -/
theorem sendRequest_promise_settled_once_witness :
    CorrWF (corrRun
      [CorrAction.send ("id-1"), CorrAction.response ("id-1"),
        CorrAction.send ("id-2"), CorrAction.timeoutFire ("id-2"),
        CorrAction.send ("id-3"), CorrAction.teardown]
      { pending := [], connectRequestId := some "id-0", settled := [] }) ∧
    corrStep (CorrAction.response ("id-9"))
      { pending := ["id-1"], connectRequestId := some "id-0", settled := [] } =
      { pending := ["id-1"], connectRequestId := some "id-0", settled := [] } := by
  constructor
  · refine sendRequest_promise_settled_once.2.1 _ _ ⟨List.nodup_nil, List.nodup_nil, ?_⟩ ?_
    · intro x hx
      exact absurd hx (List.not_mem_nil x)
    · exact ⟨⟨by decide, by decide⟩, trivial, ⟨by decide, by decide⟩, trivial,
        ⟨by decide, by decide⟩, trivial, trivial⟩
  · exact sendRequest_promise_settled_once.2.2.2 _ _ (by decide) (by decide)

theorem lexLt_irrefl (l : List Char) : lexLt l l = false := by
  induction l with
  | nil => rfl
  | cons a as ih => simp [lexLt, ih]

theorem lexLt_trans (x : List Char) : ∀ y z : List Char,
    lexLt x y = true → lexLt y z = true → lexLt x z = true := by
  induction x with
  | nil =>
    intro y z h1 h2
    cases y with
    | nil => exact absurd h1 (by simp [lexLt])
    | cons b bs =>
      cases z with
      | nil => exact absurd h2 (by simp [lexLt])
      | cons c cs => simp [lexLt]
  | cons a as ih =>
    intro y z h1 h2
    cases y with
    | nil => exact absurd h1 (by simp [lexLt])
    | cons b bs =>
      cases z with
      | nil => exact absurd h2 (by simp [lexLt])
      | cons c cs =>
        simp only [lexLt] at h1 h2 ⊢
        split_ifs at h1 h2 ⊢ with hab hba hbc hcb hac hca
        all_goals first
          | rfl
          | omega
          | (exact ih bs cs h1 h2)

theorem lexLt_connex (x : List Char) : ∀ y : List Char,
    x ≠ y → lexLt x y = true ∨ lexLt y x = true := by
  induction x with
  | nil =>
    intro y hne
    cases y with
    | nil => exact absurd rfl hne
    | cons b bs => left; simp [lexLt]
  | cons a as ih =>
    intro y hne
    cases y with
    | nil => right; simp [lexLt]
    | cons b bs =>
      by_cases hab : a.toNat < b.toNat
      · left; simp [lexLt, hab]
      · by_cases hba : b.toNat < a.toNat
        · right; simp [lexLt, hba]
        · have htn : a.toNat = b.toNat := by omega
          have hch : a = b := Char.ext (UInt32.ext htn)
          subst hch
          have hne2 : as ≠ bs := fun hc => hne (hc ▸ rfl)
          rcases ih bs hne2 with h | h
          · left; simp [lexLt, h]
          · right; simp [lexLt, h]

theorem lexLt_asymm {x y : List Char} (h : lexLt x y = true) : lexLt y x = false := by
  cases hyx : lexLt y x
  · rfl
  · have := lexLt_trans x y x h hyx
    rw [lexLt_irrefl] at this
    cases this

theorem strLt_irrefl (s : String) : strLt s s = false := lexLt_irrefl s.data

theorem strLt_asymm {a b : String} (h : strLt a b = true) : strLt b a = false :=
  lexLt_asymm h

theorem strLt_trans {a b c : String} (h1 : strLt a b = true) (h2 : strLt b c = true) :
    strLt a c = true :=
  lexLt_trans a.data b.data c.data h1 h2

theorem strLe_total (a b : String) : strLe a b = true ∨ strLe b a = true := by
  by_cases he : a = b
  · subst he
    left
    simp [strLe]
  · have hd : a.data ≠ b.data := by
      intro hc
      exact he (congrArg String.mk hc)
    rcases lexLt_connex a.data b.data hd with h | h
    · left; simp [strLe, strLt, h]
    · right; simp [strLe, strLt, h]

theorem strLe_trans {a b c : String} (h1 : strLe a b = true) (h2 : strLe b c = true) :
    strLe a c = true := by
  simp only [strLe, Bool.or_eq_true, beq_iff_eq] at h1 h2 ⊢
  rcases h1 with h1 | h1
  · rcases h2 with h2 | h2
    · exact Or.inl (strLt_trans h1 h2)
    · exact Or.inl (h2 ▸ h1)
  · exact h1 ▸ Or.imp id id h2

theorem strLt_of_le_ne {a b : String} (hle : strLe a b = true) (hne : a ≠ b) :
    strLt a b = true := by
  simp only [strLe, Bool.or_eq_true, beq_iff_eq] at hle
  rcases hle with h | h
  · exact h
  · exact absurd h hne

theorem sortItems_sorted (items0 : List ListItem) :
    List.Pairwise (fun a b : ListItem => strLe a.path b.path = true) (sortItems strLe items0) :=
  @List.sorted_insertionSort ListItem (fun a b => strLe a.path b.path = true) inferInstance
    ⟨fun a b => strLe_total a.path b.path⟩
    ⟨fun _ _ _ hab hbc => strLe_trans hab hbc⟩ items0

theorem sortItems_strict (items0 : List ListItem)
    (hnodup : (items0.map ListItem.path).Nodup) :
    List.Pairwise (fun a b : ListItem => strLt a.path b.path = true) (sortItems strLe items0) := by
  have hperm : (sortItems strLe items0).Perm items0 := by
    unfold sortItems
    exact List.perm_insertionSort _ items0
  have hnd : ((sortItems strLe items0).map ListItem.path).Nodup :=
    ((hperm.map ListItem.path).nodup_iff).mpr hnodup
  have hpairne : List.Pairwise (fun a b : ListItem => a.path ≠ b.path) (sortItems strLe items0) :=
    List.pairwise_map.mp hnd
  exact ((sortItems_sorted items0).and hpairne).imp
    (fun hab => strLt_of_le_ne hab.1 hab.2)

theorem findIdx_cursor (L : List ListItem)
    (hstrict : List.Pairwise (fun a b : ListItem => strLt a.path b.path = true) L)
    (k : Nat) (hk : k < L.length) :
    L.findIdx (fun it => strLt (L.get ⟨k, hk⟩).path it.path) = k + 1 := by
  by_cases hk1 : k + 1 < L.length
  · apply (List.findIdx_eq hk1).mpr
    constructor
    · exact List.pairwise_iff_get.mp hstrict ⟨k, hk⟩ ⟨k + 1, hk1⟩ (by simp)
    · intro j hj
      rcases Nat.lt_succ_iff_lt_or_eq.mp hj with hjk | hjk
      · have hglt := List.pairwise_iff_get.mp hstrict ⟨j, by omega⟩ ⟨k, hk⟩ hjk
        exact strLt_asymm hglt
      · subst hjk
        exact strLt_irrefl _
  · have hkl : k + 1 = L.length := by omega
    rw [hkl]
    apply List.findIdx_eq_length.mpr
    intro x hx
    obtain ⟨j, rfl⟩ := List.mem_iff_get.mp hx
    have hjl := j.isLt
    rcases Nat.lt_succ_iff_lt_or_eq.mp (show j.val < k + 1 by omega) with hjk | hjk
    · have hglt := List.pairwise_iff_get.mp hstrict j ⟨k, hk⟩ hjk
      exact strLt_asymm hglt
    · have hjq : j = (⟨k, hk⟩ : Fin L.length) := Fin.ext hjk
      rw [hjq]
      exact strLt_irrefl _

theorem listPage_none_eq (items0 : List ListItem) (limit : Nat)
    (localeLe : String → String → Bool) (btoa : String → String) (hlim : 1 ≤ limit) :
    listPage items0 none limit localeLe btoa = Except.ok
      { items := (sortItems localeLe items0).take limit
        hasMore := decide (limit < (sortItems localeLe items0).length)
        cursor := if limit < (sortItems localeLe items0).length then
            ((((sortItems localeLe items0).take limit)).getLast?).map (fun it => btoa it.path)
          else none } := by
  unfold listPage
  dsimp only
  by_cases hm : limit < (sortItems localeLe items0).length
  · have hne : (sortItems localeLe items0).take limit ≠ [] := by
      intro hc
      have hlen := congrArg List.length hc
      rw [List.length_take] at hlen
      simp only [List.length_nil] at hlen
      rw [Nat.min_eq_left (Nat.le_of_lt hm)] at hlen
      omega
    obtain ⟨x, hx⟩ := Option.isSome_iff_exists.mp (List.getLast?_isSome.mpr hne)
    simp only [if_pos hm, hx, Option.map_some']
  · simp only [if_neg hm]

theorem listPage_cursor_eq (items0 : List ListItem) (limit : Nat)
    (localeLe : String → String → Bool) (btoa : String → String) (hlim : 1 ≤ limit)
    (hstrict : List.Pairwise (fun a b : ListItem => strLt a.path b.path = true)
      (sortItems localeLe items0))
    (k : Nat) (hk : k < (sortItems localeLe items0).length) :
    listPage items0 (some ((sortItems localeLe items0).get ⟨k, hk⟩).path) limit localeLe btoa =
      Except.ok
      { items := ((sortItems localeLe items0).drop (k + 1)).take limit
        hasMore := decide (limit < (sortItems localeLe items0).length - (k + 1))
        cursor := if limit < (sortItems localeLe items0).length - (k + 1) then
            (((((sortItems localeLe items0).drop (k + 1)).take limit)).getLast?).map
              (fun it => btoa it.path)
          else none } := by
  unfold listPage
  dsimp only
  rw [findIdx_cursor (sortItems localeLe items0) hstrict k hk]
  have hitems : (if (sortItems localeLe items0).length ≤ k + 1 then []
      else (sortItems localeLe items0).drop (k + 1)) =
      (sortItems localeLe items0).drop (k + 1) := by
    split
    · next hle => exact (List.drop_eq_nil_of_le hle).symm
    · rfl
  rw [hitems, List.length_drop]
  by_cases hm : limit < (sortItems localeLe items0).length - (k + 1)
  · have hne : ((sortItems localeLe items0).drop (k + 1)).take limit ≠ [] := by
      intro hc
      have hlen := congrArg List.length hc
      rw [List.length_take, List.length_drop] at hlen
      simp only [List.length_nil] at hlen
      rw [Nat.min_eq_left (Nat.le_of_lt hm)] at hlen
      omega
    obtain ⟨x, hx⟩ := Option.isSome_iff_exists.mp (List.getLast?_isSome.mpr hne)
    simp only [if_pos hm, hx, Option.map_some']
  · simp only [if_neg hm]

theorem block_getLast (L : List ListItem) (m limit : Nat) (hlim : 1 ≤ limit)
    (h : m + limit ≤ L.length) :
    ((L.drop m).take limit).getLast? = L[m + limit - 1]? := by
  rw [List.getLast?_eq_getElem?]
  have hlen : ((L.drop m).take limit).length = limit := by
    rw [List.length_take, List.length_drop]
    omega
  rw [hlen, List.getElem?_take, if_pos (by omega), List.getElem?_drop]
  congr 1
  omega

theorem block_head (L : List ListItem) (m limit : Nat) (hlim : 1 ≤ limit) :
    ((L.drop m).take limit).head? = L[m]? := by
  rw [List.head?_eq_getElem?, List.getElem?_take, if_pos (by omega), List.getElem?_drop]
  congr 1

theorem vaultListCallSeq_spec (vault : Vault) (params : VaultListParams)
    (btoa : String → String) (atob : String → Option String) (items0 : List ListItem)
    (hassemble : vaultListItems vault (params.pathPref.getD "") (params.recursive.getD false) =
      Except.ok items0)
    (hnodup : (items0.map ListItem.path).Nodup)
    (hlimit : 1 ≤ params.limit.getD 200)
    (hrt : ∀ s, atob (btoa s) = some s)
    (hbne : ∀ s, btoa s ≠ "") :
    ∀ k res, vaultListCallSeq vault params strLe btoa atob k = some (VaultListOutcome.ok res) →
      res.items = ((sortItems strLe items0).drop (params.limit.getD 200 * k)).take
        (params.limit.getD 200) ∧
      res.hasMore = decide (params.limit.getD 200 * (k + 1) < (sortItems strLe items0).length) ∧
      res.cursor = (if res.hasMore = true then (res.items.getLast?).map (fun it => btoa it.path)
        else none) := by
  have hstrict := sortItems_strict items0 hnodup
  intro k
  induction k with
  | zero =>
    intro res h
    unfold vaultListCallSeq handleVaultList at h
    dsimp only at h
    rw [hassemble] at h
    dsimp only at h
    rw [listPage_none_eq items0 (params.limit.getD 200) strLe btoa hlimit] at h
    dsimp only at h
    simp only [Option.some.injEq, VaultListOutcome.ok.injEq] at h
    subst h
    refine ⟨by simp, by simp, ?_⟩
    dsimp only
    simp only [decide_eq_true_eq]
  | succ k ih =>
    intro res h
    unfold vaultListCallSeq at h
    rcases hsk : vaultListCallSeq vault params strLe btoa atob k with _ | out
    · rw [hsk] at h
      simp at h
    · rcases out with res' | e | m
      · rw [hsk] at h
        dsimp only at h
        obtain ⟨hitems', hmore', hcur'⟩ := ih res' hsk
        unfold vaultListNext at h
        by_cases hm : res'.hasMore = true
        · rw [if_pos hm] at h
          have hlt : params.limit.getD 200 * (k + 1) < (sortItems strLe items0).length :=
            of_decide_eq_true (hmore' ▸ hm)
          have hmulsucc : params.limit.getD 200 * (k + 1) =
              params.limit.getD 200 * k + params.limit.getD 200 := Nat.mul_succ _ _
          have hle : params.limit.getD 200 * k + params.limit.getD 200 ≤
              (sortItems strLe items0).length := by omega
          have hidx : params.limit.getD 200 * k + params.limit.getD 200 - 1 <
              (sortItems strLe items0).length := by omega
          have hgl : res'.items.getLast? =
              some ((sortItems strLe items0).get
                ⟨params.limit.getD 200 * k + params.limit.getD 200 - 1, hidx⟩) := by
            rw [hitems', block_getLast (sortItems strLe items0) _ _ hlimit hle,
              List.getElem?_eq_getElem hidx]
            rfl
          have hcurEq : res'.cursor = some (btoa
              ((sortItems strLe items0).get
                ⟨params.limit.getD 200 * k + params.limit.getD 200 - 1, hidx⟩).path) := by
            rw [hcur', if_pos hm, hgl]
            rfl
          rw [hcurEq] at h
          unfold handleVaultList at h
          dsimp only at h
          rw [beq_eq_false_iff_ne.mpr (hbne _)] at h
          rw [hrt] at h
          dsimp only at h
          rw [hassemble] at h
          simp only [Bool.false_eq_true, if_false, Option.some.injEq] at h
          rw [listPage_cursor_eq items0 (params.limit.getD 200) strLe btoa hlimit
            hstrict _ hidx] at h
          dsimp only at h
          simp only [VaultListOutcome.ok.injEq] at h
          subst h
          have harith : params.limit.getD 200 * k + params.limit.getD 200 - 1 + 1 =
              params.limit.getD 200 * (k + 1) := by omega
          rw [harith]
          refine ⟨rfl, ?_, ?_⟩
          · dsimp only
            rw [decide_eq_decide]
            have h2 : params.limit.getD 200 * (k + 1 + 1) =
                params.limit.getD 200 * (k + 1) + params.limit.getD 200 := Nat.mul_succ _ _
            omega
          · dsimp only
            simp only [decide_eq_true_eq]
        · rw [if_neg hm] at h
          simp at h
      · rw [hsk] at h
        simp at h
      · rw [hsk] at h
        simp at h

/-- C8 counterexample: listing the mixed-case two-file store one item per
page, with the locale comparator exhibiting the documented ICU English
order.  The sort puts `"a.md"` before `"B.md"`, the first call reports
more items and hands out the cursor for `"a.md"`, but the cursor filter's
code-unit `>` finds no path above `"a.md"` (since `"B.md" < "a.md"` in
code-unit order), so the second page is empty: `"B.md"` appears on no
page — a gap — and no next-page first item strictly succeeding the
previous page's last item exists, refuting the claimed chaining. -/
theorem handleVaultList_pagination_counterexample :
    (vaultListCallSeq vaultMixed paramsMixed localeLeEn btoa0 atob0 0 =
      some (VaultListOutcome.ok
        { items := [{ path := "a.md", type := "file", size := some 2, childCount := none }]
          hasMore := true, cursor := some "ca.md" })) ∧
    (vaultListCallSeq vaultMixed paramsMixed localeLeEn btoa0 atob0 1 =
      some (VaultListOutcome.ok { items := [], hasMore := false, cursor := none })) ∧
    ¬ (∀ k res resN,
        vaultListCallSeq vaultMixed paramsMixed localeLeEn btoa0 atob0 k =
          some (VaultListOutcome.ok res) →
        vaultListCallSeq vaultMixed paramsMixed localeLeEn btoa0 atob0 (k + 1) =
          some (VaultListOutcome.ok resN) →
        ∃ last first, res.items.getLast? = some last ∧ resN.items.head? = some first ∧
          strLt last.path first.path = true) := by
  refine ⟨by decide, by decide, ?_⟩
  intro hall
  obtain ⟨last, first, hl, hf, hlf⟩ := hall 0
    { items := [{ path := "a.md", type := "file", size := some 2, childCount := none }]
      hasMore := true, cursor := some "ca.md" }
    { items := [], hasMore := false, cursor := none } (by decide) (by decide)
  exact Option.noConfusion hf

/-- C8 (amended): over an unchanged store with fixed prefix, recursive
flag and limit at least 1 (with distinct item paths and a faithful base64
codec), and provided the injected locale comparator coincides with the
code-unit order the cursor filter's `>` uses — under a diverging
collation, such as ICU English on mixed-case names, the cursor filter
can skip items and leave gaps between pages — the sequence of
list-contents calls obtained by feeding each returned cursor into the
next call pages through the path-sorted item list in contiguous blocks:
no duplicates and no gaps across pages, more pages remain exactly while
items remain, and whenever a next page exists its first item strictly
succeeds the previous page's last item. -/
theorem handleVaultList_cursor_pagination_amended (vault : Vault) (params : VaultListParams)
    (localeLe : String → String → Bool) (btoa : String → String)
    (atob : String → Option String) (items0 : List ListItem)
    (hloc : localeLe = strLe)
    (hassemble : vaultListItems vault (params.pathPref.getD "") (params.recursive.getD false) =
      Except.ok items0)
    (hnodup : (items0.map ListItem.path).Nodup)
    (hlimit : 1 ≤ params.limit.getD 200)
    (hrt : ∀ s, atob (btoa s) = some s)
    (hbne : ∀ s, btoa s ≠ "") :
    ∀ k res, vaultListCallSeq vault params localeLe btoa atob k =
        some (VaultListOutcome.ok res) →
      res.items = ((sortItems localeLe items0).drop (params.limit.getD 200 * k)).take
        (params.limit.getD 200) ∧
      (res.hasMore = true ↔
        params.limit.getD 200 * (k + 1) < (sortItems localeLe items0).length) ∧
      (∀ resN, vaultListCallSeq vault params localeLe btoa atob (k + 1) =
          some (VaultListOutcome.ok resN) →
        ∃ last first, res.items.getLast? = some last ∧ resN.items.head? = some first ∧
          strLt last.path first.path = true) := by
  subst hloc
  have hstrict := sortItems_strict items0 hnodup
  intro k res h
  obtain ⟨hitems, hmore, _⟩ := vaultListCallSeq_spec vault params btoa atob items0
    hassemble hnodup hlimit hrt hbne k res h
  refine ⟨hitems, ?_, ?_⟩
  · rw [hmore]
    simp only [decide_eq_true_eq]
  · intro resN hN
    obtain ⟨hitemsN, _, _⟩ := vaultListCallSeq_spec vault params btoa atob items0
      hassemble hnodup hlimit hrt hbne (k + 1) resN hN
    have hmk : res.hasMore = true := by
      unfold vaultListCallSeq at hN
      rw [h] at hN
      dsimp only at hN
      unfold vaultListNext at hN
      by_cases hb : res.hasMore = true
      · exact hb
      · rw [if_neg hb] at hN
        cases hN
    have hlt : params.limit.getD 200 * (k + 1) < (sortItems strLe items0).length :=
      of_decide_eq_true (hmore ▸ hmk)
    have hmulsucc : params.limit.getD 200 * (k + 1) =
        params.limit.getD 200 * k + params.limit.getD 200 := Nat.mul_succ _ _
    have hle : params.limit.getD 200 * k + params.limit.getD 200 ≤
        (sortItems strLe items0).length := by omega
    have hidx : params.limit.getD 200 * k + params.limit.getD 200 - 1 <
        (sortItems strLe items0).length := by omega
    refine ⟨(sortItems strLe items0).get
        ⟨params.limit.getD 200 * k + params.limit.getD 200 - 1, hidx⟩,
      (sortItems strLe items0).get ⟨params.limit.getD 200 * (k + 1), hlt⟩, ?_, ?_, ?_⟩
    · rw [hitems, block_getLast (sortItems strLe items0) _ _ hlimit hle,
        List.getElem?_eq_getElem hidx]
      rfl
    · rw [hitemsN, block_head (sortItems strLe items0) _ _ hlimit,
        List.getElem?_eq_getElem hlt]
      rfl
    · exact List.pairwise_iff_get.mp hstrict _ _ (by
        simp only [Fin.mk_lt_mk]
        omega)

/-- Witness for C8 (amended): a three-file vault listed recursively with
limit 2 under a comparator agreeing with code-unit order — the second
page exists and its first item strictly succeeds the first page's last
item. -/
theorem handleVaultList_cursor_pagination_amended_witness :
    vaultListCallSeq vault0
      { pathPref := none, recursive := some true, limit := some 2, cursor := none }
      strLe btoa0 atob0 1 = some (VaultListOutcome.ok
        { items := [{ path := "c.md", type := "file", size := some 3, childCount := none }]
          hasMore := false, cursor := none }) ∧
    ∃ last first,
      ({ items := [ { path := "a.md", type := "file", size := some 2, childCount := none }
                  , { path := "b.md", type := "file", size := some 1, childCount := none } ]
         hasMore := true
         cursor := some "cb.md" } : VaultListResult).items.getLast? = some last ∧
      ({ items := [{ path := "c.md", type := "file", size := some 3, childCount := none }]
         hasMore := false, cursor := none } : VaultListResult).items.head? = some first ∧
      strLt last.path first.path = true := by
  have hbneW : ∀ s, btoa0 s ≠ "" := by
    intro s hc
    exact List.noConfusion (congrArg String.data hc : 'c' :: s.data = [])
  have h := handleVaultList_cursor_pagination_amended vault0
    { pathPref := none, recursive := some true, limit := some 2, cursor := none }
    strLe btoa0 atob0 items0 rfl (by decide) (by decide) (by decide) (fun s => rfl) hbneW 0
    { items := [ { path := "a.md", type := "file", size := some 2, childCount := none }
               , { path := "b.md", type := "file", size := some 1, childCount := none } ]
      hasMore := true
      cursor := some "cb.md" } (by decide)
  obtain ⟨last, first, hl, hf, hlf⟩ := h.2.2
    { items := [{ path := "c.md", type := "file", size := some 3, childCount := none }]
      hasMore := false, cursor := none } (by decide)
  exact ⟨by decide, last, first, hl, hf, hlf⟩
